import Mathlib

/-!
# caddy-dynamic-remoteip: the `dynamic_remote_ip` request matcher

A shallow embedding of `dynamic_ip_matcher.go` and of the standard-library
functions it calls (`net.SplitHostPort`, `strings.Cut`, `netip.ParseAddr`,
`netip.Prefix.Contains`), followed by the properties of the matcher.

Conventions of the embedding:

* a Go `string` is the list of its bytes (`GoString`); `bytes` turns an ASCII
  literal into that list;
* machine integers are `Nat` or `Int`, reduced explicitly where the Go type is
  narrower than the values computed;
* an index result of `-1` ("not found") is `none`;
* a Go `error` value is represented by its message (`GoError`), `nil` by `none`;
* a Go function that may stop with a run-time panic returns an `Outcome`.
-/

namespace DynamicIPMatcher

/-! ## Strings and errors -/

/-- A Go string, as the list of its bytes. -/
abbrev GoString := List Nat

/-- The bytes of an ASCII string literal. -/
def bytes (s : String) : GoString := s.toList.map Char.toNat

/-- A Go `error` value, represented by its message. -/
structure GoError where
  msg : String
deriving DecidableEq, Repr

deriving instance DecidableEq for Except

/-- The result of a call that either returns or panics. -/
inductive Outcome (α : Type) where
  | ret (a : α)
  | panics (why : String)
deriving DecidableEq, Repr

/-- Index of the first byte `c` of `s` (`bytealg.IndexByteString`); `none` is `-1`. -/
def IndexByteString : GoString → Nat → Option Nat
  | [], _ => none
  | x :: xs, c => if x = c then some 0 else (IndexByteString xs c).map (· + 1)

/-- Index of the last byte `c` of `s` (`bytealg.LastIndexByteString`); `none` is `-1`. -/
def LastIndexByteString : GoString → Nat → Option Nat
  | [], _ => none
  | x :: xs, c =>
    match LastIndexByteString xs c with
    | some j => some (j + 1)
    | none => if x = c then some 0 else none

/-- The slice expression `s[lo:hi]`. -/
def slice (s : GoString) (lo hi : Nat) : GoString := (s.take hi).drop lo

/-- Go's `strings.Cut(s, sep)` for a one-byte separator: the text before the first
`sep`, the text after it, and whether `sep` occurs. -/
def Cut (s : GoString) (sep : Nat) : GoString × GoString × Bool :=
  match IndexByteString s sep with
  | some i => (s.take i, s.drop (i + 1), true)
  | none => (s, [], false)

/-! ## `net.SplitHostPort` -/

/-- Go's `net.SplitHostPort`: `(host, port, err)`. -/
def SplitHostPort (hostport : GoString) : GoString × GoString × Option GoError :=
  let addrErr (why : String) : GoString × GoString × Option GoError := ([], [], some ⟨why⟩)
  -- The port starts after the last colon.
  match LastIndexByteString hostport 58 with
  | none => addrErr "missing port in address"
  | some i =>
    if hostport.head? = some 91 then
      -- Expect the first ']' just before the last ':'.
      match IndexByteString hostport 93 with
      | none => addrErr "missing ']' in address"
      | some end_ =>
        if end_ + 1 = hostport.length then
          addrErr "missing port in address"
        else if end_ + 1 = i then
          let host := slice hostport 1 end_
          if (IndexByteString (hostport.drop 1) 91).isSome then
            addrErr "unexpected '[' in address"
          else if (IndexByteString (hostport.drop (end_ + 1)) 93).isSome then
            addrErr "unexpected ']' in address"
          else (host, hostport.drop (i + 1), none)
        else if hostport.getD (end_ + 1) 0 = 58 then
          addrErr "too many colons in address"
        else addrErr "missing port in address"
    else
      let host := hostport.take i
      if (IndexByteString host 58).isSome then
        addrErr "too many colons in address"
      else if (IndexByteString hostport 91).isSome then
        addrErr "unexpected '[' in address"
      else if (IndexByteString hostport 93).isSome then
        addrErr "unexpected ']' in address"
      else (host, hostport.drop (i + 1), none)

/-! ## `net/netip`: addresses -/

/-- The 128-bit integer of `net/netip`: two 64-bit halves. -/
structure uint128 where
  hi : Nat
  lo : Nat
deriving DecidableEq, Repr

/-- The `z` field of a `netip.Addr`: the zero value, the IPv4 marker, the IPv6
marker without a zone, or an IPv6 zone name. -/
inductive addrZ where
  | z0
  | z4
  | z6noz
  | zoneV6 (zone : GoString)
deriving DecidableEq, Repr

/-- Go's `netip.Addr`. -/
structure Addr where
  addr : uint128
  z : addrZ
deriving DecidableEq, Repr

/-- Go's `Addr.Is4`. -/
def Addr.Is4 (ip : Addr) : Bool := decide (ip.z = addrZ.z4)

/-- Go's `Addr.Is6`. -/
def Addr.Is6 (ip : Addr) : Bool := decide (ip.z ≠ addrZ.z0 ∧ ip.z ≠ addrZ.z4)

/-- Go's `Addr.isZero`. -/
def Addr.isZero (ip : Addr) : Bool := decide (ip.z = addrZ.z0)

/-- Go's `Addr.hasZone`. -/
def Addr.hasZone (ip : Addr) : Bool :=
  decide (ip.z ≠ addrZ.z0 ∧ ip.z ≠ addrZ.z4 ∧ ip.z ≠ addrZ.z6noz)

/-- Go's `Addr.BitLen`. -/
def Addr.BitLen (ip : Addr) : Nat :=
  match ip.z with
  | addrZ.z0 => 0
  | addrZ.z4 => 32
  | _ => 128

/-- Go's `Addr.WithZone`. -/
def Addr.WithZone (ip : Addr) (zone : GoString) : Addr :=
  if ¬ ip.Is6 then ip
  else if zone = [] then { ip with z := addrZ.z6noz }
  else { ip with z := addrZ.zoneV6 zone }

/-- Go's `Addr.withoutZone`. -/
def Addr.withoutZone (ip : Addr) : Addr :=
  if ¬ ip.Is6 then ip else { ip with z := addrZ.z6noz }

/-- Go's `netip.AddrFrom4`, on the four bytes of the address. -/
def AddrFrom4 (addr : List Nat) : Addr :=
  { addr := { hi := 0,
              lo := 0xffff00000000 ||| (addr.getD 0 0 <<< 24) ||| (addr.getD 1 0 <<< 16)
                    ||| (addr.getD 2 0 <<< 8) ||| addr.getD 3 0 },
    z := addrZ.z4 }

/-- Big-endian `uint64` of the first eight bytes of `b` (`byteorder.BeUint64`). -/
def beUint64 (b : List Nat) : Nat :=
  b.getD 7 0 ||| (b.getD 6 0 <<< 8) ||| (b.getD 5 0 <<< 16) ||| (b.getD 4 0 <<< 24)
    ||| (b.getD 3 0 <<< 32) ||| (b.getD 2 0 <<< 40) ||| (b.getD 1 0 <<< 48)
    ||| (b.getD 0 0 <<< 56)

/-- Go's `netip.AddrFrom16`, on the sixteen bytes of the address. -/
def AddrFrom16 (addr : List Nat) : Addr :=
  { addr := { hi := beUint64 (addr.take 8), lo := beUint64 (addr.drop 8) },
    z := addrZ.z6noz }

/-- Go's `netip.IPv4Unspecified`: the address `0.0.0.0`. -/
def IPv4Unspecified : Addr := AddrFrom4 [0, 0, 0, 0]

/-- Go's `netip.IPv6Unspecified`: the address `::`. -/
def IPv6Unspecified : Addr := { addr := { hi := 0, lo := 0 }, z := addrZ.z6noz }

/-! ## `net/netip`: parsing -/

/-- The loop of `parseIPv4Fields` over `s`, at index `i` with `rest = s[i:]`. -/
def parseIPv4FieldsLoop (s : GoString) :
    GoString → Nat → Nat → Nat → Nat → List Nat → Except GoError (List Nat)
  | [], _, val, pos, _, fields =>
    if pos < 3 then .error ⟨"IPv4 address too short"⟩
    else .ok (fields.set 3 (val % 256))
  | c :: rest, i, val, pos, digLen, fields =>
    if 48 ≤ c ∧ c ≤ 57 then
      if digLen = 1 ∧ val = 0 then .error ⟨"IPv4 field has octet with leading zero"⟩
      else
        let val := val * 10 + c - 48
        let digLen := digLen + 1
        if val > 255 then .error ⟨"IPv4 field has value >255"⟩
        else parseIPv4FieldsLoop s rest (i + 1) val pos digLen fields
    else if c = 46 then
      if i = 0 ∨ i = s.length - 1 ∨ s.getD (i - 1) 0 = 46 then
        .error ⟨"IPv4 field must have at least one digit"⟩
      else if pos = 3 then .error ⟨"IPv4 address too long"⟩
      else parseIPv4FieldsLoop s rest (i + 1) 0 (pos + 1) 0 (fields.set pos (val % 256))
    else .error ⟨"unexpected character"⟩

/-- Go's `parseIPv4Fields(in, off, end, fields)`: the four bytes written to `fields`,
or the error. -/
def parseIPv4Fields (input : GoString) (off end_ : Nat) : Except GoError (List Nat) :=
  let s := slice input off end_
  parseIPv4FieldsLoop s s 0 0 0 0 [0, 0, 0, 0]

/-- Go's `parseIPv4`. -/
def parseIPv4 (s : GoString) : Except GoError Addr :=
  match parseIPv4Fields s 0 s.length with
  | .error err => .error err
  | .ok fields => .ok (AddrFrom4 fields)

/-- The value of a hexadecimal digit, `none` for any other byte. -/
def hexVal (c : Nat) : Option Nat :=
  if 48 ≤ c ∧ c ≤ 57 then some (c - 48)
  else if 97 ≤ c ∧ c ≤ 102 then some (c - 97 + 10)
  else if 65 ≤ c ∧ c ≤ 70 then some (c - 65 + 10)
  else none

/-- The inner loop of `parseIPv6` reading one hexadecimal group: from `s[off:]`, the
offset and accumulator at which the loop stops. -/
def hexGroup : GoString → Nat → Nat → Except GoError (Nat × Nat)
  | [], off, acc => .ok (off, acc)
  | c :: rest, off, acc =>
    match hexVal c with
    | none => .ok (off, acc)
    | some v =>
      let acc := ((acc <<< 4) + v) % 2 ^ 32
      if off > 3 then .error ⟨"each group must have 4 or less digits"⟩
      else if acc > 65535 then .error ⟨"IPv6 field has value >=2^16"⟩
      else hexGroup rest (off + 1) acc

/-- The variables of the main loop of `parseIPv6`. -/
structure v6State where
  s : GoString
  i : Nat
  ellipsis : Int
  ip : List Nat
deriving DecidableEq, Repr

/-- The assignment of four bytes `f` to `ip[i:i+4]`. -/
def setFields (ip : List Nat) (i : Nat) (f : List Nat) : List Nat :=
  (((ip.set i (f.getD 0 0)).set (i + 1) (f.getD 1 0)).set (i + 2) (f.getD 2 0)).set (i + 3)
    (f.getD 3 0)

/-- The message of the error that stands for the loop of `parseIPv6` running out of
fuel; `parseIPv6Loop_fuel` shows that it does not occur. -/
def outOfFuel : GoError := ⟨"out of fuel"⟩

/-- The loop `for i < 16` of `parseIPv6`: the state at which the loop is left. Each
turn that continues adds 2 to `i`, so 8 turns suffice. -/
def parseIPv6Loop (input zone : GoString) : Nat → v6State → Except GoError v6State
  | 0, st => if st.i < 16 then .error outOfFuel else .ok st
  | fuel + 1, st =>
    if ¬ st.i < 16 then .ok st
    else
      match hexGroup st.s 0 0 with
      | .error err => .error err
      | .ok (off, acc) =>
        if off = 0 then
          .error ⟨"each colon-separated field must have at least one digit"⟩
        else if off < st.s.length ∧ st.s.getD off 0 = 46 then
          -- If followed by dot, might be in trailing IPv4.
          if st.ellipsis < 0 ∧ st.i ≠ 12 then
            .error ⟨"embedded IPv4 address must replace the final 2 fields of the address"⟩
          else if st.i + 4 > 16 then
            .error ⟨"too many hex fields to fit an embedded IPv4 at the end of the address"⟩
          else
            let end_ := input.length - (if zone.length > 0 then zone.length + 1 else 0)
            match parseIPv4Fields input (end_ - st.s.length) end_ with
            | .error err => .error err
            | .ok f =>
              .ok { s := [], i := st.i + 4, ellipsis := st.ellipsis, ip := setFields st.ip st.i f }
        else
          -- Save this 16-bit chunk.
          let ip := (st.ip.set st.i ((acc >>> 8) % 256)).set (st.i + 1) (acc % 256)
          let i := st.i + 2
          -- Stop at end of string.
          let s := st.s.drop off
          if s.length = 0 then .ok { s := s, i := i, ellipsis := st.ellipsis, ip := ip }
          -- Otherwise must be followed by colon and more.
          else if s.getD 0 0 ≠ 58 then .error ⟨"unexpected character, want colon"⟩
          else if s.length = 1 then .error ⟨"colon must be followed by more characters"⟩
          else
            let s := s.drop 1
            -- Look for ellipsis.
            if s.getD 0 0 = 58 then
              if st.ellipsis ≥ 0 then .error ⟨"multiple :: in address"⟩
              else
                let s := s.drop 1
                if s.length = 0 then .ok { s := s, i := i, ellipsis := i, ip := ip }
                else parseIPv6Loop input zone fuel { s := s, i := i, ellipsis := i, ip := ip }
            else parseIPv6Loop input zone fuel { s := s, i := i, ellipsis := st.ellipsis, ip := ip }

/-- The loop `for j := i - 1; j >= ellipsis; j--` of `parseIPv6` moving the groups
after the ellipsis to the end; the first argument is `j + 1`. -/
def shiftGroups (n ellipsis : Nat) : Nat → List Nat → List Nat
  | 0, ip => ip
  | j + 1, ip =>
    if j ≥ ellipsis then shiftGroups n ellipsis j (ip.set (j + n) (ip.getD j 0)) else ip

/-- Go's `clear(ip[lo : lo+n])`. -/
def clearRange (ip : List Nat) (lo : Nat) : Nat → List Nat
  | 0 => ip
  | n + 1 => clearRange (ip.set (lo + n) 0) lo n

/-- Go's `parseIPv6`. -/
def parseIPv6 (input : GoString) : Except GoError Addr :=
  -- Split off the zone right from the start.
  let pct := IndexByteString input 37
  let s := match pct with
    | some i => input.take i
    | none => input
  let zone := match pct with
    | some i => input.drop (i + 1)
    | none => []
  if pct.isSome ∧ zone = [] then .error ⟨"zone must be a non-empty string"⟩
  else
    -- Might have leading ellipsis.
    let lead : Bool := decide (s.length ≥ 2 ∧ s.getD 0 0 = 58 ∧ s.getD 1 0 = 58)
    let ellipsis : Int := if lead then 0 else -1
    let s := if lead then s.drop 2 else s
    -- Might be only ellipsis.
    if lead ∧ s.length = 0 then .ok (IPv6Unspecified.WithZone zone)
    else
      match parseIPv6Loop input zone 8
          { s := s, i := 0, ellipsis := ellipsis, ip := List.replicate 16 0 } with
      | .error err => .error err
      | .ok st =>
        -- Must have used entire string.
        if st.s.length ≠ 0 then .error ⟨"trailing garbage after address"⟩
        -- If didn't parse enough, expand ellipsis.
        else if st.i < 16 then
          if st.ellipsis < 0 then .error ⟨"address string too short"⟩
          else
            let n := 16 - st.i
            let ip := shiftGroups n st.ellipsis.toNat st.i st.ip
            .ok ((AddrFrom16 (clearRange ip st.ellipsis.toNat n)).WithZone zone)
        else if st.ellipsis ≥ 0 then
          .error ⟨"the :: must expand to at least one field of zeros"⟩
        else .ok ((AddrFrom16 st.ip).WithZone zone)

/-- The loop of `ParseAddr` looking for the first `.`, `:` or `%` of `s`. -/
def ParseAddrLoop (s : GoString) : GoString → Except GoError Addr
  | [] => .error ⟨"unable to parse IP"⟩
  | c :: rest =>
    if c = 46 then parseIPv4 s
    else if c = 58 then parseIPv6 s
    else if c = 37 then .error ⟨"missing IPv6 address"⟩
    else ParseAddrLoop s rest

/-- Go's `netip.ParseAddr`. -/
def ParseAddr (s : GoString) : Except GoError Addr := ParseAddrLoop s s

/-! ## `net/netip`: prefixes -/

/-- Go's `netip.Prefix`: an address and, when the prefix is valid, its length plus one. -/
structure Prefix where
  ip : Addr
  bitsPlusOne : Nat
deriving DecidableEq, Repr

/-- Go's `Prefix.IsValid`. -/
def Prefix.IsValid (p : Prefix) : Bool := decide (p.bitsPlusOne > 0)

/-- Go's `Prefix.Bits`. -/
def Prefix.Bits (p : Prefix) : Int := (p.bitsPlusOne : Int) - 1

/-- Go's `netip.PrefixFrom`. -/
def PrefixFrom (ip : Addr) (bits : Int) : Prefix :=
  { ip := ip.withoutZone,
    bitsPlusOne :=
      if ¬ ip.isZero ∧ bits ≥ 0 ∧ bits ≤ (ip.BitLen : Int) then bits.toNat % 256 + 1 else 0 }

/-- All ones in 64 bits: `^uint64(0)`. -/
def maxUint64 : Nat := 2 ^ 64 - 1

/-- Go's `mask6`: the 128-bit mask of the `n` leading bits. -/
def mask6 (n : Int) : uint128 :=
  { hi := maxUint64 ^^^ (maxUint64 >>> n.toNat),
    lo := (maxUint64 <<< (128 - n).toNat) % 2 ^ 64 }

/-- Go's `uint128.xor`. -/
def uint128.xor (u m : uint128) : uint128 := { hi := u.hi ^^^ m.hi, lo := u.lo ^^^ m.lo }

/-- Go's `uint128.and`. -/
def uint128.and (u m : uint128) : uint128 := { hi := u.hi &&& m.hi, lo := u.lo &&& m.lo }

/-- Go's `uint128.isZero`. -/
def uint128.isZero (u : uint128) : Bool := decide (u.hi ||| u.lo = 0)

/-- Go's `Prefix.Contains`. -/
def Prefix.Contains (p : Prefix) (ip : Addr) : Bool :=
  if ¬ p.IsValid ∨ ip.hasZone then false
  else if p.ip.BitLen = 0 ∨ ip.BitLen = 0 ∨ p.ip.BitLen ≠ ip.BitLen then false
  else if ip.Is4 then
    -- xor the addresses, shift away the bits outside the prefix, truncate to 32 bits
    decide (((ip.addr.lo ^^^ p.ip.addr.lo) >>> ((32 - p.Bits) % 64).toNat) % 2 ^ 32 = 0)
  else
    ((ip.addr.xor p.ip.addr).and (mask6 p.Bits)).isZero

/-! ## The host runtime: requests, range sources, logger -/

/-- The fields of `http.Request` that the matcher or a range source may read. -/
structure Request where
  RemoteAddr : GoString
  Method : String
  Host : String
  RequestURI : String
deriving DecidableEq, Repr

/-- Caddy's `caddyhttp.IPRangeSource`: a value with a method `GetIPRanges`. -/
structure IPRangeSource where
  GetIPRanges : Request → List Prefix

/-- A `zap.Logger`. -/
structure Logger where
  name : String
deriving DecidableEq, Repr

/-- An entry written by a logger. -/
structure LogEntry where
  logger : Logger
  level : String
  msg : String
  err : GoError
deriving DecidableEq, Repr

/-- The method `(*zap.Logger).Error` called with one `zap.Error(err)` field on a logger
pointer: a nil pointer is dereferenced, which panics; otherwise the entry is written. -/
def Logger.Error (log : Option Logger) (msg : String) (err : GoError) : Outcome LogEntry :=
  match log with
  | none => .panics "runtime error: invalid memory address or nil pointer dereference"
  | some l => .ret { logger := l, level := "error", msg := msg, err := err }

/-! ## The matcher -/

/-- The struct `MatchDynamicRemoteIP`; `none` is a nil slice, interface or pointer. -/
structure MatchDynamicRemoteIP where
  ProvidersRaw : Option GoString
  Providers : Option IPRangeSource
  logger : Option Logger

/-- The function `parseIPZoneFromString`: the address and the error returned. -/
def parseIPZoneFromString (address : GoString) : Addr × Option GoError :=
  let ipStr :=
    match SplitHostPort address with
    | (host, _, none) => host
    | (_, _, some _) => address -- OK; probably didn't have a port
  -- Remote IP may contain a zone if IPv6, so we need
  -- to pull that out before parsing the IP
  let ipStr := (Cut ipStr 37).1
  match ParseAddr ipStr with
  | .error err => (IPv4Unspecified, some err)
  | .ok ipAddr => (ipAddr, none)

/-- The loop of `matchIP` over the ranges: the value returned and the slice as the
loop leaves it. -/
def scanRanges (remoteIP : Addr) : List Prefix → Bool × List Prefix
  | [] => (false, [])
  | ipRange :: rest =>
    if ipRange.Contains remoteIP then (true, ipRange :: rest)
    else ((scanRanges remoteIP rest).1, ipRange :: (scanRanges remoteIP rest).2)

/-- The method `matchIP`: the value returned, and the slice `cidrs` obtained from the
provider as it stands on return (`none` when the provider was not asked). -/
def matchIP (m : MatchDynamicRemoteIP) (r : Request) (remoteIP : Addr) :
    Bool × Option (List Prefix) :=
  match m.Providers with
  | none =>
    -- We have no prover, So we can't match anything
    (false, none)
  | some p =>
    let cidrs := p.GetIPRanges r
    ((scanRanges remoteIP cidrs).1, some (scanRanges remoteIP cidrs).2)

/-- What a call of `Match` leaves behind: the value returned or the panic, the
caller's matcher after the call, the slice obtained from the provider, and the
entries logged. -/
structure MatchReturn where
  result : Outcome Bool
  m : MatchDynamicRemoteIP
  cidrs : Option (List Prefix)
  log : List LogEntry

/-- The method `Match`. It has a value receiver: it works on a copy of `m`. -/
def Match (m : MatchDynamicRemoteIP) (r : Request) : MatchReturn :=
  let address := r.RemoteAddr
  match parseIPZoneFromString address with
  | (_, some err) =>
    match Logger.Error m.logger "getting remote IP" err with
    | .panics why => { result := .panics why, m := m, cidrs := none, log := [] }
    | .ret entry => { result := .ret false, m := m, cidrs := none, log := [entry] }
  | (remoteIP, none) =>
    let matched := matchIP m r remoteIP
    { result := .ret matched.1, m := m, cidrs := matched.2, log := [] }

/-! ## Configuration: `Provision` and `UnmarshalCaddyfile` -/

/-- A value loaded as a Caddy module: a range source, or a value of another type. -/
inductive Module where
  | ipRangeSource (src : IPRangeSource)
  | other (typeName : String)

/-- The part of `caddy.Context` that `Provision` uses: the logger that `ctx.Logger()`
returns, and `ctx.LoadModule(m, "ProvidersRaw")` as a function of the raw message
stored in that field. -/
structure Context where
  Logger : Logger
  LoadModule : GoString → Except GoError Module

/-- What a call of `Provision` leaves behind. -/
structure ProvisionReturn where
  result : Outcome (Option GoError)
  m : MatchDynamicRemoteIP

/-- The method `Provision`. -/
def Provision (m : MatchDynamicRemoteIP) (ctx : Context) : ProvisionReturn :=
  let m := { m with logger := some ctx.Logger }
  match m.ProvidersRaw with
  | some raw =>
    match ctx.LoadModule raw with
    | .error err => { result := .ret (some err), m := m }
    | .ok val =>
      match val with
      | .ipRangeSource src => { result := .ret none, m := { m with Providers := some src } }
      | .other typeName =>
        { result := .panics ("interface conversion: interface \x7b\x7d is " ++ typeName
            ++ ", not caddyhttp.IPRangeSource"),
          m := m }
  | none => { result := .ret none, m := m }

/-- A token of a Caddyfile. -/
structure Token where
  File : String
  Line : Nat
  Text : String
deriving DecidableEq, Repr

/-- Caddy's `caddyfile.Dispenser`: the tokens and the cursor. -/
structure Dispenser where
  tokens : List Token
  cursor : Int
deriving DecidableEq, Repr

/-- Caddy's `Dispenser.Next`. -/
def Dispenser.Next (d : Dispenser) : Dispenser × Bool :=
  if d.cursor < (d.tokens.length : Int) - 1 then ({ d with cursor := d.cursor + 1 }, true)
  else (d, false)

/-- Caddy's `Dispenser.Val`. -/
def Dispenser.Val (d : Dispenser) : String :=
  if d.cursor < 0 ∨ d.cursor ≥ (d.tokens.length : Int) then ""
  else ((d.tokens.get? d.cursor.toNat).map Token.Text).getD ""

/-- Caddy's `isNextOnNewLine`, for tokens without line breaks inside. -/
def isNextOnNewLine (t1 t2 : Token) : Bool :=
  decide (t1.File ≠ t2.File ∨ t1.Line < t2.Line)

/-- Caddy's `Dispenser.NextArg`. -/
def Dispenser.NextArg (d : Dispenser) : Dispenser × Bool :=
  let stepped : Dispenser × Bool :=
    if d.cursor < 0 then ({ d with cursor := d.cursor + 1 }, true)
    else if d.cursor ≥ (d.tokens.length : Int) - 1 then (d, false)
    else
      match d.tokens.get? d.cursor.toNat, d.tokens.get? (d.cursor.toNat + 1) with
      | some curr, some next =>
        if ¬ isNextOnNewLine curr next then ({ d with cursor := d.cursor + 1 }, true)
        else (d, false)
      | _, _ => (d, false)
  if ¬ stepped.2 then (stepped.1, false)
  else if stepped.1.Val = "\x7b" then ({ stepped.1 with cursor := stepped.1.cursor - 1 }, false)
  else (stepped.1, true)

/-- Caddy's `Dispenser.Err`: the error with the message given; the file and line that
Caddy appends to the message are left out. -/
def Dispenser.Err (_d : Dispenser) (msg : String) : GoError := ⟨msg⟩

/-- Caddy's `Dispenser.ArgErr`. -/
def Dispenser.ArgErr (d : Dispenser) : GoError :=
  if d.Val = "\x7b" then d.Err "unexpected token '\x7b', expecting argument"
  else d.Err ("wrong argument count or unexpected line ending after '" ++ d.Val ++ "'")

/-- The functions of the host that `UnmarshalCaddyfile` calls with the dispenser:
`caddyfile.UnmarshalModule(d, modID)`, which looks the module up in the registry and
lets it read its own tokens, and `caddyconfig.JSONModuleObject(provider, "source",
name, nil)`, which encodes the provider. -/
structure CaddyHost where
  UnmarshalModule : Dispenser → String → Dispenser × Except GoError Module
  JSONModuleObject : IPRangeSource → String → String → Option GoString

/-- What a call of `UnmarshalCaddyfile` leaves behind. -/
structure UnmarshalReturn where
  err : Option GoError
  m : MatchDynamicRemoteIP
  d : Dispenser

/-- The method `UnmarshalCaddyfile`. -/
def UnmarshalCaddyfile (host : CaddyHost) (m : MatchDynamicRemoteIP) (d : Dispenser) :
    UnmarshalReturn :=
  let d := d.Next.1 -- consume the directive name
  let arg := d.NextArg
  let d := arg.1
  if ¬ arg.2 then { err := some d.ArgErr, m := m, d := d }
  else if m.Providers.isSome then
    { err := some (d.Err "providers already specified"), m := m, d := d }
  else
    let dynModule := d.Val
    let modID := "http.ip_sources." ++ dynModule
    let loaded := host.UnmarshalModule d modID
    let d := loaded.1
    match loaded.2 with
    | .error err => { err := some err, m := m, d := d }
    | .ok mod =>
      match mod with
      | .other typeName =>
        { err := some (d.Err ("module " ++ modID ++ " (" ++ typeName ++ ") is not an IPRangeSource")),
          m := m, d := d }
      | .ipRangeSource provider =>
        { err := none,
          m := { m with ProvidersRaw := host.JSONModuleObject provider "source" dynModule },
          d := d }

/-! ## Sample values -/

/-- A range source that returns the same ranges for every request. -/
def staticSource (rs : List Prefix) : IPRangeSource := { GetIPRanges := fun _ => rs }

/-- A request with the remote address given. -/
def requestFrom (remoteAddr : String) : Request :=
  { RemoteAddr := bytes remoteAddr, Method := "GET", Host := "example.com", RequestURI := "/" }

/-- The prefix `198.51.100.0/24`. -/
def net198 : Prefix := PrefixFrom (AddrFrom4 [198, 51, 100, 0]) 24

/-- The prefix `203.0.113.0/24`. -/
def net203 : Prefix := PrefixFrom (AddrFrom4 [203, 0, 113, 0]) 24

/-- The prefixes `0.0.0.0/0` and `::/0`, which together contain every address. -/
def everyAddress : List Prefix := [PrefixFrom IPv4Unspecified 0, PrefixFrom IPv6Unspecified 0]

/-- A logger. -/
def sampleLogger : Logger := { name := "http.matchers.dynamic_remote_ip" }

/-- A matcher as `new(MatchDynamicRemoteIP)` makes it: every field nil. -/
def newMatcher : MatchDynamicRemoteIP := { ProvidersRaw := none, Providers := none, logger := none }

/-- A provisioned matcher whose provider returns `rs`. -/
def matcherWith (rs : List Prefix) : MatchDynamicRemoteIP :=
  { ProvidersRaw := none, Providers := some (staticSource rs), logger := some sampleLogger }

/-- A context whose module loader knows no module. -/
def sampleContext : Context :=
  { Logger := sampleLogger, LoadModule := fun _ => .error ⟨"unknown module"⟩ }

/-- A host with two range sources registered, `static` and `dynamic`; a module reads
no tokens of its own, and is encoded as the object that names it. -/
def sampleHost : CaddyHost :=
  { UnmarshalModule := fun d modID =>
      if modID = "http.ip_sources.static" then (d, .ok (.ipRangeSource (staticSource [net198])))
      else if modID = "http.ip_sources.dynamic" then
        (d, .ok (.ipRangeSource (staticSource [net203])))
      else (d, .error ⟨"getting module: unknown module"⟩),
    JSONModuleObject := fun _ fieldName fieldVal =>
      some (bytes ("\x7b\"" ++ fieldName ++ "\":\"" ++ fieldVal ++ "\"\x7d")) }

/-- The tokens of the line `dynamic_remote_ip <name>`. -/
def directive (name : String) : Dispenser :=
  { tokens := [⟨"Caddyfile", 1, "dynamic_remote_ip"⟩, ⟨"Caddyfile", 1, name⟩], cursor := -1 }

/-! ## The scan and the two paths of `Match` -/

theorem scanRanges_snd (ip : Addr) (rs : List Prefix) : (scanRanges ip rs).2 = rs := by
  induction rs with
  | nil => rfl
  | cons x xs ih =>
    unfold scanRanges
    split
    · rfl
    · simp [ih]

theorem scanRanges_fst (ip : Addr) (rs : List Prefix) :
    (scanRanges ip rs).1 = rs.any (fun x => x.Contains ip) := by
  induction rs with
  | nil => rfl
  | cons x xs ih =>
    unfold scanRanges
    by_cases h : x.Contains ip = true
    · simp [h]
    · simp [h, ih]

theorem scanRanges_true_iff (ip : Addr) (rs : List Prefix) :
    (scanRanges ip rs).1 = true ↔ ∃ x ∈ rs, x.Contains ip = true := by
  rw [scanRanges_fst, List.any_eq_true]

theorem scanRanges_perm (ip : Addr) {rs rs' : List Prefix} (h : rs.Perm rs') :
    (scanRanges ip rs).1 = (scanRanges ip rs').1 := by
  rw [Bool.eq_iff_iff, scanRanges_true_iff, scanRanges_true_iff]
  constructor
  · rintro ⟨x, hx, hc⟩
    exact ⟨x, h.mem_iff.1 hx, hc⟩
  · rintro ⟨x, hx, hc⟩
    exact ⟨x, h.mem_iff.2 hx, hc⟩

theorem matchIP_no_provider (m : MatchDynamicRemoteIP) (r : Request) (ip : Addr)
    (h : m.Providers = none) : matchIP m r ip = (false, none) := by
  simp [matchIP, h]

theorem matchIP_provider (m : MatchDynamicRemoteIP) (r : Request) (ip : Addr)
    (p : IPRangeSource) (h : m.Providers = some p) :
    matchIP m r ip = ((scanRanges ip (p.GetIPRanges r)).1, some (p.GetIPRanges r)) := by
  simp [matchIP, h, scanRanges_snd]

theorem Match_parsed (m : MatchDynamicRemoteIP) (r : Request) (ip : Addr)
    (h : parseIPZoneFromString r.RemoteAddr = (ip, none)) :
    Match m r =
      { result := .ret (matchIP m r ip).1, m := m, cidrs := (matchIP m r ip).2, log := [] } := by
  simp [Match, h]

theorem Match_malformed_logged (m : MatchDynamicRemoteIP) (r : Request) (ip : Addr)
    (err : GoError) (l : Logger)
    (h : parseIPZoneFromString r.RemoteAddr = (ip, some err)) (hl : m.logger = some l) :
    Match m r =
      { result := .ret false, m := m, cidrs := none,
        log := [{ logger := l, level := "error", msg := "getting remote IP", err := err }] } := by
  simp [Match, h, hl, Logger.Error]

theorem Match_malformed_nil_logger (m : MatchDynamicRemoteIP) (r : Request) (ip : Addr)
    (err : GoError)
    (h : parseIPZoneFromString r.RemoteAddr = (ip, some err)) (hl : m.logger = none) :
    Match m r =
      { result := .panics "runtime error: invalid memory address or nil pointer dereference", m := m,
        cidrs := none, log := [] } := by
  simp [Match, h, hl, Logger.Error]

theorem Match_malformed_eq (m : MatchDynamicRemoteIP) (r : Request) (ip : Addr)
    (err : GoError) (h : parseIPZoneFromString r.RemoteAddr = (ip, some err)) :
    Match m r =
      match m.logger with
      | none =>
        { result := .panics "runtime error: invalid memory address or nil pointer dereference", m := m,
          cidrs := none, log := [] }
      | some l =>
        { result := .ret false, m := m, cidrs := none,
          log := [{ logger := l, level := "error", msg := "getting remote IP", err := err }] } := by
  cases hl : m.logger with
  | none => exact Match_malformed_nil_logger m r ip err h hl
  | some l => exact Match_malformed_logged m r ip err l h hl

theorem Match_receiver (m : MatchDynamicRemoteIP) (r : Request) : (Match m r).m = m := by
  rcases hp : parseIPZoneFromString r.RemoteAddr with ⟨ip, _ | err⟩
  · rw [Match_parsed m r ip hp]
  · rw [Match_malformed_eq m r ip err hp]
    cases m.logger <;> rfl

theorem parse_cases (s : GoString) :
    (∃ ip, parseIPZoneFromString s = (ip, none)) ∨
      ∃ ip err, parseIPZoneFromString s = (ip, some err) := by
  rcases hp : parseIPZoneFromString s with ⟨ip, _ | err⟩
  · exact Or.inl ⟨ip, rfl⟩
  · exact Or.inr ⟨ip, err, rfl⟩

/-! ## Range matching -/

/-- C1: when the remote address of the request parses to `ip` and the configured
provider returns `rs` for the request, `Match` returns, and it returns `true` exactly
when some range of `rs` contains `ip`; for an empty `rs` it returns `false`. -/
theorem Match_iff_exists_range (m : MatchDynamicRemoteIP) (r : Request) (p : IPRangeSource)
    (ip : Addr) (rs : List Prefix)
    (hparse : parseIPZoneFromString r.RemoteAddr = (ip, none))
    (hprov : m.Providers = some p) (hrs : p.GetIPRanges r = rs) :
    ∃ b, (Match m r).result = .ret b ∧
      (b = true ↔ ∃ range ∈ rs, range.Contains ip = true) ∧ (rs = [] → b = false) := by
  refine ⟨(scanRanges ip rs).1, ?_, scanRanges_true_iff ip rs, ?_⟩
  · rw [Match_parsed m r ip hparse, matchIP_provider m r ip p hprov, hrs]
  · rintro rfl
    rfl

/-- Witness of C1: with the ranges `198.51.100.0/24`, the remote address
`198.51.100.42` is matched and `203.0.113.1` is not. -/
theorem Match_iff_exists_range_witness :
    (Match (matcherWith [net198]) (requestFrom "198.51.100.42")).result = .ret true ∧
    (Match (matcherWith [net198]) (requestFrom "203.0.113.1")).result = .ret false ∧
    parseIPZoneFromString (requestFrom "198.51.100.42").RemoteAddr
      = (AddrFrom4 [198, 51, 100, 42], none) ∧
    ∃ b, (Match (matcherWith [net198]) (requestFrom "198.51.100.42")).result = .ret b ∧
      (b = true ↔ ∃ range ∈ [net198], range.Contains (AddrFrom4 [198, 51, 100, 42]) = true) ∧
      ([net198] = [] → b = false) :=
  ⟨by decide, by decide, by decide,
    Match_iff_exists_range (matcherWith [net198]) (requestFrom "198.51.100.42")
      (staticSource [net198]) (AddrFrom4 [198, 51, 100, 42]) [net198] (by decide) rfl rfl⟩

/-- C5: the value of `Match` does not depend on the order in which the provider
enumerates its ranges: two providers whose results for the request are permutations
of each other give the same outcome; in particular, when only `B` contains the parsed
address, the result is `true` for `[A, B]` and for `[B, A]`. -/
theorem Match_perm (m : MatchDynamicRemoteIP) (r : Request) (p p' : IPRangeSource)
    (hperm : (p.GetIPRanges r).Perm (p'.GetIPRanges r)) :
    (Match { m with Providers := some p } r).result
        = (Match { m with Providers := some p' } r).result ∧
      ∀ (A B : Prefix) (ip : Addr), parseIPZoneFromString r.RemoteAddr = (ip, none) →
        A.Contains ip = false → B.Contains ip = true →
        (Match { m with Providers := some (staticSource [A, B]) } r).result = .ret true ∧
        (Match { m with Providers := some (staticSource [B, A]) } r).result = .ret true := by
  constructor
  · rcases parse_cases r.RemoteAddr with ⟨ip, h⟩ | ⟨ip, err, h⟩
    · rw [Match_parsed _ r ip h, Match_parsed _ r ip h,
        matchIP_provider _ r ip p rfl, matchIP_provider _ r ip p' rfl,
        scanRanges_perm ip hperm]
    · rw [Match_malformed_eq _ r ip err h, Match_malformed_eq _ r ip err h]
      cases m.logger <;> rfl
  · intro A B ip h hA hB
    rw [Match_parsed _ r ip h, Match_parsed _ r ip h,
      matchIP_provider _ r ip (staticSource [A, B]) rfl,
      matchIP_provider _ r ip (staticSource [B, A]) rfl]
    simp [staticSource, scanRanges, hA, hB]

/-- Witness of C5: the ranges `203.0.113.0/24` and `198.51.100.0/24` in both orders,
for the remote address `198.51.100.42`. -/
theorem Match_perm_witness :
    ([net203, net198].Perm [net198, net203]) ∧
    (Match { newMatcher with Providers := some (staticSource [net203, net198]) }
        (requestFrom "198.51.100.42")).result = .ret true ∧
    (Match { newMatcher with Providers := some (staticSource [net198, net203]) }
        (requestFrom "198.51.100.42")).result = .ret true ∧
    (Match { newMatcher with Providers := some (staticSource [net203, net198]) }
        (requestFrom "198.51.100.42")).result
      = (Match { newMatcher with Providers := some (staticSource [net198, net203]) }
        (requestFrom "198.51.100.42")).result :=
  ⟨List.Perm.swap _ _ _, by decide, by decide,
    (Match_perm newMatcher (requestFrom "198.51.100.42") (staticSource [net203, net198])
      (staticSource [net198, net203]) (List.Perm.swap _ _ _)).1⟩

/-- C6: `Match` is a function of the remote address and of the ranges the provider
returns: two calls on the same matcher with the same remote address, whose providers
(absent in both, or present in both) return the same ranges, have the same outcome,
log the same and leave the same slice; and a call leaves the matcher, hence its
provider reference, and the ranges returned as they were. -/
theorem Match_deterministic (m : MatchDynamicRemoteIP) (p1 p2 : Option IPRangeSource)
    (r1 r2 : Request) (haddr : r1.RemoteAddr = r2.RemoteAddr)
    (hrs : p1.map (fun p => p.GetIPRanges r1) = p2.map (fun p => p.GetIPRanges r2)) :
    (Match { m with Providers := p1 } r1).result = (Match { m with Providers := p2 } r2).result ∧
    (Match { m with Providers := p1 } r1).log = (Match { m with Providers := p2 } r2).log ∧
    (Match { m with Providers := p1 } r1).cidrs = (Match { m with Providers := p2 } r2).cidrs ∧
    (Match m r1).m = m ∧
    ((Match m r1).cidrs = none ∨ (Match m r1).cidrs = m.Providers.map (fun p => p.GetIPRanges r1)) := by
  have key : ∀ ip, matchIP { m with Providers := p1 } r1 ip
      = matchIP { m with Providers := p2 } r2 ip := by
    intro ip
    cases p1 with
    | none =>
      cases p2 with
      | none => rfl
      | some q => simp at hrs
    | some q1 =>
      cases p2 with
      | none => simp at hrs
      | some q2 =>
        simp only [Option.map_some', Option.some.injEq] at hrs
        rw [matchIP_provider _ r1 ip q1 rfl, matchIP_provider _ r2 ip q2 rfl, hrs]
  have hstate : (Match m r1).m = m := Match_receiver m r1
  have hcidrs : (Match m r1).cidrs = none
      ∨ (Match m r1).cidrs = m.Providers.map (fun p => p.GetIPRanges r1) := by
    rcases parse_cases r1.RemoteAddr with ⟨ip, h⟩ | ⟨ip, err, h⟩
    · right
      rw [Match_parsed m r1 ip h]
      cases hp : m.Providers with
      | none => simp [matchIP_no_provider m r1 ip hp]
      | some q => simp [matchIP_provider m r1 ip q hp]
    · left
      rw [Match_malformed_eq m r1 ip err h]
      cases m.logger <;> rfl
  rcases parse_cases r1.RemoteAddr with ⟨ip, h⟩ | ⟨ip, err, h⟩
  · have h2 := h
    rw [haddr] at h2
    refine ⟨?_, ?_, ?_, hstate, hcidrs⟩
    all_goals rw [Match_parsed _ r1 ip h, Match_parsed _ r2 ip h2, key ip]
  · have h2 := h
    rw [haddr] at h2
    refine ⟨?_, ?_, ?_, hstate, hcidrs⟩
    all_goals
      rw [Match_malformed_eq _ r1 ip err h, Match_malformed_eq _ r2 ip err h2]
      cases m.logger <;> rfl

/-- Witness of C6: two requests from `198.51.100.42` that differ in method and path,
with two providers that return the same ranges. -/
theorem Match_deterministic_witness :
    (Match { newMatcher with Providers := some (staticSource [net198]) }
        (requestFrom "198.51.100.42")).result
      = (Match { newMatcher with Providers := some { GetIPRanges := fun r =>
            if r.Method = "POST" then [net198] else [] } }
          { requestFrom "198.51.100.42" with Method := "POST", RequestURI := "/login" }).result ∧
    (Match { newMatcher with Providers := some (staticSource [net198]) }
        (requestFrom "198.51.100.42")).result = .ret true :=
  ⟨(Match_deterministic newMatcher (some (staticSource [net198]))
      (some { GetIPRanges := fun r => if r.Method = "POST" then [net198] else [] })
      (requestFrom "198.51.100.42")
      { requestFrom "198.51.100.42" with Method := "POST", RequestURI := "/login" }
      rfl rfl).1, by decide⟩

/-! ## No provider, malformed addresses -/

/-- Counterexample to C2 as stated: a matcher without provider whose logger was never
set panics on a malformed remote address, so it does not return `false`. -/
theorem Match_no_provider_counterexample :
    newMatcher.Providers.isNone = true ∧
    (Match newMatcher (requestFrom "not-an-ip")).result
      = .panics "runtime error: invalid memory address or nil pointer dereference" ∧
    (Match newMatcher (requestFrom "not-an-ip")).result ≠ .ret false :=
  ⟨rfl, by decide, by decide⟩

/-- C2, amended: with no provider configured, `matchIP` returns `false` for every
address without asking for ranges; `Match` returns `false` for every request whose
remote address parses; and once the logger is set, `Match` returns `false` for every
request. -/
theorem Match_no_provider (m : MatchDynamicRemoteIP) (r : Request)
    (h : m.Providers = none) :
    (∀ ip, matchIP m r ip = (false, none)) ∧
    ((parseIPZoneFromString r.RemoteAddr).2 = none → (Match m r).result = .ret false) ∧
    (m.logger ≠ none → (Match m r).result = .ret false) := by
  refine ⟨fun ip => matchIP_no_provider m r ip h, ?_, ?_⟩
  · intro hp
    rcases parse_cases r.RemoteAddr with ⟨ip, hq⟩ | ⟨ip, err, hq⟩
    · rw [Match_parsed m r ip hq, matchIP_no_provider m r ip h]
    · rw [hq] at hp
      simp at hp
  · intro hl
    rcases parse_cases r.RemoteAddr with ⟨ip, hq⟩ | ⟨ip, err, hq⟩
    · rw [Match_parsed m r ip hq, matchIP_no_provider m r ip h]
    · cases hlog : m.logger with
      | none => exact absurd hlog hl
      | some l => rw [Match_malformed_logged m r ip err l hq hlog]

/-- Witness of C2, amended: a matcher with a logger and no provider, on the valid
address `198.51.100.42` and on `not-an-ip`. -/
theorem Match_no_provider_witness :
    (Match { newMatcher with logger := some sampleLogger }
        (requestFrom "198.51.100.42")).result = .ret false ∧
    (Match { newMatcher with logger := some sampleLogger }
        (requestFrom "not-an-ip")).result = .ret false :=
  ⟨(Match_no_provider { newMatcher with logger := some sampleLogger }
      (requestFrom "198.51.100.42") rfl).2.1 (by decide),
    (Match_no_provider { newMatcher with logger := some sampleLogger }
      (requestFrom "not-an-ip") rfl).2.2 (by simp)⟩

/-- Counterexample to C3 as stated: a matcher whose provider covers every address and
whose logger was never set panics on the malformed remote address `not-an-ip`. -/
theorem Match_malformed_counterexample :
    (parseIPZoneFromString (requestFrom "not-an-ip").RemoteAddr).2
      = some ⟨"unable to parse IP"⟩ ∧
    (Match { newMatcher with Providers := some (staticSource everyAddress) }
        (requestFrom "not-an-ip")).result
      = .panics "runtime error: invalid memory address or nil pointer dereference" :=
  ⟨by decide, by decide⟩

/-- C3, amended: for every matcher whose logger is set and every request whose remote
address is malformed, `Match` returns `false` without panicking and without asking the
provider, whatever provider is configured; it logs the error. -/
theorem Match_malformed (m : MatchDynamicRemoteIP) (r : Request) (l : Logger) (err : GoError)
    (hl : m.logger = some l) (herr : (parseIPZoneFromString r.RemoteAddr).2 = some err) :
    (Match m r).result = .ret false ∧ (Match m r).cidrs = none ∧
      (Match m r).log = [{ logger := l, level := "error", msg := "getting remote IP", err := err }] := by
  rcases parse_cases r.RemoteAddr with ⟨ip, hq⟩ | ⟨ip, err', hq⟩
  · rw [hq] at herr
    simp at herr
  · rw [hq] at herr
    simp only [Option.some.injEq] at herr
    subst herr
    rw [Match_malformed_logged m r ip err' l hq hl]
    exact ⟨rfl, rfl, rfl⟩

/-- Witness of C3, amended: the address `not-an-ip` against a provider whose ranges
contain every address. -/
theorem Match_malformed_witness :
    (PrefixFrom IPv4Unspecified 0).Contains (AddrFrom4 [203, 0, 113, 1]) = true ∧
    (Match (matcherWith everyAddress) (requestFrom "203.0.113.1")).result = .ret true ∧
    (Match (matcherWith everyAddress) (requestFrom "not-an-ip")).result = .ret false :=
  ⟨by decide, by decide,
    (Match_malformed (matcherWith everyAddress) (requestFrom "not-an-ip") sampleLogger
      ⟨"unable to parse IP"⟩ rfl (by decide)).1⟩

/-! ## Configuration -/

/-- C8: `Provision` on a matcher whose `ProvidersRaw` is nil returns no error, sets the
logger and leaves `Providers` as it was; when that is nil, it stays nil and every later
`Match`, on a well-formed or a malformed remote address, returns `false`. -/
theorem Provision_no_provider (m : MatchDynamicRemoteIP) (ctx : Context)
    (hraw : m.ProvidersRaw = none) :
    (Provision m ctx).result = .ret none ∧
    (Provision m ctx).m.logger = some ctx.Logger ∧
    (Provision m ctx).m.ProvidersRaw = none ∧
    (Provision m ctx).m.Providers = m.Providers ∧
    (m.Providers = none →
      (Provision m ctx).m.Providers = none ∧
      ∀ r, (Match (Provision m ctx).m r).result = .ret false) := by
  have hP : Provision m ctx
      = { result := .ret none, m := { m with logger := some ctx.Logger } } := by
    simp [Provision, hraw]
  have hm : (Provision m ctx).m = { m with logger := some ctx.Logger } := by rw [hP]
  have hres : (Provision m ctx).result = .ret none := by rw [hP]
  rw [hm, hres]
  refine ⟨rfl, rfl, hraw, rfl, fun hprov => ⟨hprov, fun r => ?_⟩⟩
  have hprov2 : ({ m with logger := some ctx.Logger } : MatchDynamicRemoteIP).Providers
      = none := hprov
  rcases parse_cases r.RemoteAddr with ⟨ip, hq⟩ | ⟨ip, err, hq⟩
  · rw [Match_parsed _ r ip hq, matchIP_no_provider _ r ip hprov2]
  · rw [Match_malformed_logged _ r ip err ctx.Logger hq rfl]

/-- Witness of C8: a new matcher, provisioned, on `not-an-ip` and on `203.0.113.1`. -/
theorem Provision_no_provider_witness :
    (Provision newMatcher sampleContext).result = .ret none ∧
    (Match (Provision newMatcher sampleContext).m (requestFrom "not-an-ip")).result
      = .ret false ∧
    (Match (Provision newMatcher sampleContext).m (requestFrom "203.0.113.1")).result
      = .ret false :=
  ⟨(Provision_no_provider newMatcher sampleContext rfl).1,
    (Provision_no_provider newMatcher sampleContext rfl).2.2.2.2 rfl |>.2 _,
    by decide⟩

theorem UnmarshalCaddyfile_Providers (host : CaddyHost) (m : MatchDynamicRemoteIP)
    (d : Dispenser) : (UnmarshalCaddyfile host m d).m.Providers = m.Providers := by
  unfold UnmarshalCaddyfile
  simp only
  repeat' split
  all_goals rfl

/-- C9, the code at the failing input: after `dynamic_remote_ip static` has stored a
provider configuration, a second `UnmarshalCaddyfile` on the same matcher, with
`dynamic_remote_ip dynamic`, returns no error and replaces the stored configuration;
the guard reads `Providers`, which is still nil after the first call. -/
theorem UnmarshalCaddyfile_twice :
    (UnmarshalCaddyfile sampleHost newMatcher (directive "static")).err = none ∧
    (UnmarshalCaddyfile sampleHost newMatcher (directive "static")).m.ProvidersRaw
      = some (bytes "\x7b\"source\":\"static\"\x7d") ∧
    (UnmarshalCaddyfile sampleHost newMatcher (directive "static")).m.Providers.isNone = true ∧
    (UnmarshalCaddyfile sampleHost
        (UnmarshalCaddyfile sampleHost newMatcher (directive "static")).m
        (directive "dynamic")).err = none ∧
    (UnmarshalCaddyfile sampleHost
        (UnmarshalCaddyfile sampleHost newMatcher (directive "static")).m
        (directive "dynamic")).m.ProvidersRaw
      = some (bytes "\x7b\"source\":\"dynamic\"\x7d") := by
  refine ⟨?_, ?_, ?_, ?_, ?_⟩ <;> decide

/-! ## Bytes of a string: index, cut, host and port -/

theorem IndexByteString_eq_none {s : GoString} {c : Nat} (h : c ∉ s) :
    IndexByteString s c = none := by
  induction s with
  | nil => rfl
  | cons x xs ih =>
    have hx : x ≠ c := fun e => h (by simp [e])
    have hxs : c ∉ xs := fun e => h (List.mem_cons_of_mem _ e)
    simp [IndexByteString, hx, ih hxs]

theorem IndexByteString_append_cons {h : GoString} (t : GoString) {c : Nat} (hc : c ∉ h) :
    IndexByteString (h ++ c :: t) c = some h.length := by
  induction h with
  | nil => simp [IndexByteString]
  | cons x xs ih =>
    have hx : x ≠ c := fun e => hc (by simp [e])
    have hxs : c ∉ xs := fun e => hc (List.mem_cons_of_mem _ e)
    simp [IndexByteString, hx, ih hxs]

theorem IndexByteString_some {s : GoString} {c i : Nat} (h : IndexByteString s c = some i) :
    c ∉ s.take i ∧ s = s.take i ++ c :: s.drop (i + 1) := by
  induction s generalizing i with
  | nil => simp [IndexByteString] at h
  | cons x xs ih =>
    by_cases hx : x = c
    · simp [IndexByteString, hx] at h
      subst h
      simp [hx]
    · simp only [IndexByteString, hx, if_false, Option.map_eq_some'] at h
      obtain ⟨j, hj, rfl⟩ := h
      obtain ⟨h1, h2⟩ := ih hj
      refine ⟨?_, ?_⟩
      · simp only [List.take_succ_cons, List.mem_cons, not_or]
        exact ⟨fun e => hx e.symm, h1⟩
      · simp only [List.take_succ_cons, List.drop_succ_cons, List.cons_append]
        rw [← h2]

theorem LastIndexByteString_eq_none {s : GoString} {c : Nat} (h : c ∉ s) :
    LastIndexByteString s c = none := by
  induction s with
  | nil => rfl
  | cons x xs ih =>
    have hx : x ≠ c := fun e => h (by simp [e])
    have hxs : c ∉ xs := fun e => h (List.mem_cons_of_mem _ e)
    simp [LastIndexByteString, hx, ih hxs]

theorem LastIndexByteString_append_cons (h : GoString) {t : GoString} {c : Nat} (hc : c ∉ t) :
    LastIndexByteString (h ++ c :: t) c = some h.length := by
  induction h with
  | nil => simp [LastIndexByteString, LastIndexByteString_eq_none hc]
  | cons x xs ih => simp [LastIndexByteString, ih]

theorem LastIndexByteString_none_not_mem {s : GoString} {c : Nat}
    (h : LastIndexByteString s c = none) : c ∉ s := by
  induction s with
  | nil => simp
  | cons x xs ih =>
    simp only [LastIndexByteString] at h
    cases hl : LastIndexByteString xs c with
    | some j => simp [hl] at h
    | none =>
      rw [hl] at h
      by_cases hx : x = c
      · simp [hx] at h
      · simp only [List.mem_cons, not_or]
        exact ⟨fun e => hx e.symm, ih hl⟩

theorem LastIndexByteString_some {s : GoString} {c i : Nat}
    (h : LastIndexByteString s c = some i) :
    c ∉ s.drop (i + 1) ∧ s = s.take i ++ c :: s.drop (i + 1) := by
  induction s generalizing i with
  | nil => simp [LastIndexByteString] at h
  | cons x xs ih =>
    simp only [LastIndexByteString] at h
    cases hl : LastIndexByteString xs c with
    | some j =>
      rw [hl] at h
      simp only [Option.some.injEq] at h
      subst h
      obtain ⟨h1, h2⟩ := ih hl
      refine ⟨by simpa using h1, ?_⟩
      simp only [List.take_succ_cons, List.drop_succ_cons, List.cons_append]
      rw [← h2]
    | none =>
      rw [hl] at h
      by_cases hx : x = c
      · simp [hx] at h
        subst h
        simp [hx, LastIndexByteString_none_not_mem hl]
      · simp [hx] at h

theorem Cut_of_not_mem {s : GoString} {c : Nat} (h : c ∉ s) : (Cut s c).1 = s := by
  simp [Cut, IndexByteString_eq_none h]

theorem Cut_append_cons {a : GoString} (z : GoString) {c : Nat} (h : c ∉ a) :
    (Cut (a ++ c :: z) c).1 = a := by
  simp [Cut, IndexByteString_append_cons z h]

theorem Cut_eq_takeWhile (s : GoString) (c : Nat) :
    (Cut s c).1 = s.takeWhile (fun x => decide (x ≠ c)) := by
  unfold Cut
  induction s with
  | nil => rfl
  | cons x xs ih =>
    by_cases hx : x = c
    · simp [IndexByteString, hx, List.takeWhile]
    · cases hi : IndexByteString xs c with
      | none =>
        rw [hi] at ih
        simp only at ih
        simp only [IndexByteString, hx, if_false, hi, Option.map_none', List.takeWhile, ne_eq,
          not_false_eq_true, decide_True]
        rw [← ih]
      | some i =>
        rw [hi] at ih
        simp only at ih
        simp only [IndexByteString, hx, if_false, hi, Option.map_some', List.takeWhile, ne_eq,
          not_false_eq_true, decide_True, List.take_succ_cons]
        rw [← ih]

theorem Cut_not_mem (s : GoString) (c : Nat) : c ∉ (Cut s c).1 := by
  unfold Cut
  cases h : IndexByteString s c with
  | none =>
    intro hm
    have : IndexByteString s c ≠ none := by
      clear h
      induction s with
      | nil => simp at hm
      | cons x xs ih =>
        by_cases hx : x = c
        · simp [IndexByteString, hx]
        · simp only [List.mem_cons] at hm
          rcases hm with e | e
          · exact absurd e.symm hx
          · simpa [IndexByteString, hx] using ih e
    exact this h
  | some i => exact (IndexByteString_some h).1

theorem SplitHostPort_no_colon {s : GoString} (h : 58 ∉ s) :
    (SplitHostPort s).2.2 ≠ none := by
  simp [SplitHostPort, LastIndexByteString_eq_none h]

theorem SplitHostPort_many_colons {s : GoString} (hb : s.head? ≠ some 91)
    (h : 2 ≤ s.count 58) : (SplitHostPort s).2.2 ≠ none := by
  unfold SplitHostPort
  cases hl : LastIndexByteString s 58 with
  | none => simp
  | some i =>
    obtain ⟨h1, h2⟩ := LastIndexByteString_some hl
    have hcount : 1 ≤ (s.take i).count 58 := by
      have := congrArg (List.count 58) h2
      rw [List.count_append, List.count_cons_self, List.count_eq_zero_of_not_mem h1] at this
      omega
    have hmem : 58 ∈ s.take i := List.count_pos_iff.1 hcount
    have hidx : (IndexByteString (s.take i) 58).isSome = true := by
      cases hi : IndexByteString (s.take i) 58 with
      | some j => rfl
      | none => exact absurd hmem (by
          intro hm
          have := Cut_not_mem (s.take i) 58
          simp [Cut, hi] at this
          exact this hm)
    simp [hb, hidx]

theorem SplitHostPort_host_port {h p : GoString}
    (h58 : 58 ∉ h) (h91 : 91 ∉ h) (h93 : 93 ∉ h)
    (p58 : 58 ∉ p) (p91 : 91 ∉ p) (p93 : 93 ∉ p) :
    SplitHostPort (h ++ 58 :: p) = (h, p, none) := by
  have hhead : (h ++ 58 :: p).head? ≠ some 91 := by
    cases h with
    | nil => simp
    | cons x xs =>
      simp only [List.cons_append, List.head?_cons, ne_eq, Option.some.injEq]
      intro e
      exact h91 (by simp [e])
  have hh : ¬ h.head? = some 91 := by
    intro e
    exact h91 (List.mem_of_mem_head? e)
  have hno91 : 91 ∉ h ++ 58 :: p := by simp [h91, p91]
  have hno93 : 93 ∉ h ++ 58 :: p := by simp [h93, p93]
  simp [SplitHostPort, LastIndexByteString_append_cons h p58, hhead, hh,
    IndexByteString_eq_none h58, IndexByteString_eq_none hno91, IndexByteString_eq_none hno93]

theorem SplitHostPort_bracketed {h p : GoString}
    (h91 : 91 ∉ h) (h93 : 93 ∉ h)
    (p58 : 58 ∉ p) (p91 : 91 ∉ p) (p93 : 93 ∉ p) :
    SplitHostPort (91 :: h ++ 93 :: 58 :: p) = (h, p, none) := by
  have e1 : 91 :: h ++ 93 :: 58 :: p = (91 :: h ++ [93]) ++ 58 :: p := by simp
  have hlast : LastIndexByteString (91 :: h ++ 93 :: 58 :: p) 58 = some (h.length + 2) := by
    rw [e1, LastIndexByteString_append_cons _ p58]
    simp
  have hfirst : IndexByteString (91 :: h ++ 93 :: 58 :: p) 93 = some (h.length + 1) := by
    have : 93 ∉ 91 :: h := by simp [h93]
    have e2 : 91 :: h ++ 93 :: 58 :: p = (91 :: h) ++ 93 :: (58 :: p) := by simp
    rw [e2, IndexByteString_append_cons _ this]
    simp
  have hno91 : 91 ∉ h ++ 93 :: 58 :: p := by simp [h91, p91]
  have hno93 : 93 ∉ (58 :: p : GoString) := by simp [p93]
  have hd1 : (91 :: h ++ 93 :: 58 :: p).drop 1 = h ++ 93 :: 58 :: p := by simp
  have hd2 : (91 :: h ++ 93 :: 58 :: p).drop (h.length + 1 + 1) = 58 :: p := by
    rw [e1]
    have : (91 :: h ++ [93]).length = h.length + 1 + 1 := by simp
    rw [← this, List.drop_left]
  have hd3 : (91 :: h ++ 93 :: 58 :: p).drop (h.length + 2 + 1) = p := by
    have e3 : 91 :: h ++ 93 :: 58 :: p = (91 :: h ++ [93, 58]) ++ p := by simp
    rw [e3]
    have : (91 :: h ++ [93, 58]).length = h.length + 2 + 1 := by simp
    rw [← this, List.drop_left]
  have hs : slice (91 :: h ++ 93 :: 58 :: p) 1 (h.length + 1) = h := by
    simp [slice]
  unfold SplitHostPort
  rw [hlast]
  simp only [hfirst, hd1, hd2, hd3, hs, IndexByteString_eq_none hno91, IndexByteString_eq_none hno93]
  simp

/-! ## Parsed addresses and zones -/

theorem parseIPv4FieldsLoop_chars (s : GoString) (rest : GoString) (i val pos digLen : Nat)
    (fields f : List Nat)
    (h : parseIPv4FieldsLoop s rest i val pos digLen fields = .ok f) :
    ∀ c ∈ rest, (48 ≤ c ∧ c ≤ 57) ∨ c = 46 := by
  induction rest generalizing i val pos digLen fields with
  | nil => simp
  | cons x xs ih =>
    simp only [parseIPv4FieldsLoop] at h
    intro c hc
    rcases List.mem_cons.1 hc with rfl | hc
    · split_ifs at h <;> first | (left; assumption) | (right; assumption)
    · split_ifs at h <;> exact ih _ _ _ _ _ h c hc

theorem slice_zero_length (s : GoString) : slice s 0 s.length = s := by
  simp [slice]

theorem parseIPv4_ok {s : GoString} {ip : Addr} (h : parseIPv4 s = .ok ip) :
    ip.z = addrZ.z4 ∧ (∀ c ∈ s, (48 ≤ c ∧ c ≤ 57) ∨ c = 46) ∧
      ∃ f, parseIPv4FieldsLoop s s 0 0 0 0 [0, 0, 0, 0] = .ok f ∧ ip = AddrFrom4 f := by
  unfold parseIPv4 parseIPv4Fields at h
  rw [slice_zero_length] at h
  cases hf : parseIPv4FieldsLoop s s 0 0 0 0 [0, 0, 0, 0] with
  | error e => simp [hf] at h
  | ok f =>
    simp only [hf, Except.ok.injEq] at h
    subst h
    exact ⟨rfl, parseIPv4FieldsLoop_chars s s 0 0 0 0 _ f hf, f, rfl, rfl⟩

theorem WithZone_nil_z (ip : Addr) (h : ip.z = addrZ.z6noz) : (ip.WithZone []).z = addrZ.z6noz := by
  simp [Addr.WithZone, Addr.Is6, h]

theorem parseIPv6_ok_z {s : GoString} {ip : Addr} (hs : 37 ∉ s) (h : parseIPv6 s = .ok ip) :
    ip.z = addrZ.z6noz := by
  unfold parseIPv6 at h
  simp only [IndexByteString_eq_none hs] at h
  have fin : ∀ {x : Addr}, x.z = addrZ.z6noz → Except.ok (ε := GoError) (x.WithZone []) = Except.ok ip →
      ip.z = addrZ.z6noz := by
    intro x hx e
    simp only [Except.ok.injEq] at e
    subst e
    exact WithZone_nil_z _ hx
  repeat' split at h
  all_goals first
    | exact fin rfl h
    | simp at h

theorem ParseAddrLoop_ok {s rest : GoString} {ip : Addr} (h : ParseAddrLoop s rest = .ok ip) :
    parseIPv4 s = .ok ip ∨ parseIPv6 s = .ok ip := by
  induction rest with
  | nil => simp [ParseAddrLoop] at h
  | cons x xs ih =>
    simp only [ParseAddrLoop] at h
    split_ifs at h
    · exact Or.inl h
    · exact Or.inr h
    · exact ih h

theorem ParseAddr_ok_z {s : GoString} {ip : Addr} (hs : 37 ∉ s) (h : ParseAddr s = .ok ip) :
    ip.z = addrZ.z4 ∨ ip.z = addrZ.z6noz := by
  rcases ParseAddrLoop_ok h with h4 | h6
  · exact Or.inl (parseIPv4_ok h4).1
  · exact Or.inr (parseIPv6_ok_z hs h6)

theorem parseIPZoneFromString_host (s : GoString) :
    ∃ host, (host = s ∨ ∃ port, SplitHostPort s = (host, port, none)) ∧
      parseIPZoneFromString s =
        match ParseAddr (host.takeWhile (fun x => decide (x ≠ 37))) with
        | .error err => (IPv4Unspecified, some err)
        | .ok ipAddr => (ipAddr, none) := by
  unfold parseIPZoneFromString
  rcases hsp : SplitHostPort s with ⟨host, port, _ | e⟩
  · exact ⟨host, Or.inr ⟨port, rfl⟩, by simp only [Cut_eq_takeWhile]⟩
  · exact ⟨s, Or.inl rfl, by simp only [Cut_eq_takeWhile]⟩


/-! ## One turn of the loop of `parseIPv6` -/

theorem hexGroup_ok {rest : GoString} {off acc off' acc' : Nat}
    (h : hexGroup rest off acc = .ok (off', acc')) :
    off ≤ off' ∧ ∀ c ∈ rest.take (off' - off), (hexVal c).isSome = true := by
  induction rest generalizing off acc with
  | nil =>
    simp only [hexGroup, Except.ok.injEq, Prod.mk.injEq] at h
    obtain ⟨rfl, _⟩ := h
    simp
  | cons x xs ih =>
    simp only [hexGroup] at h
    cases hv : hexVal x with
    | none =>
      simp only [hv, Except.ok.injEq, Prod.mk.injEq] at h
      obtain ⟨rfl, _⟩ := h
      simp
    | some v =>
      simp only [hv] at h
      split_ifs at h
      obtain ⟨h1, h2⟩ := ih h
      refine ⟨by omega, ?_⟩
      have e : off' - off = (off' - (off + 1)) + 1 := by omega
      rw [e, List.take_succ_cons]
      intro c hc
      rcases List.mem_cons.1 hc with rfl | hc
      · simp [hv]
      · exact h2 c hc

theorem parseIPv6Loop_step {input zone : GoString} {fuel : Nat} {st st' : v6State}
    (hi : st.i < 16) (h : parseIPv6Loop input zone (fuel + 1) st = .ok st') :
    ∃ off acc, hexGroup st.s 0 0 = .ok (off, acc) ∧ off ≠ 0 ∧
      ((st.s.getD off 0 = 46 ∧ off < st.s.length ∧
          (∃ f, parseIPv4Fields input
              (input.length - (if zone.length > 0 then zone.length + 1 else 0) - st.s.length)
              (input.length - (if zone.length > 0 then zone.length + 1 else 0)) = .ok f) ∧
          st'.s = [] ∧ st'.i = st.i + 4 ∧ st'.ellipsis = st.ellipsis) ∨
       (st.s.drop off = [] ∧ st'.s = [] ∧ st'.i = st.i + 2 ∧ st'.ellipsis = st.ellipsis) ∨
       (∃ t ip, st.s.drop off = 58 :: t ∧
          parseIPv6Loop input zone fuel
            { s := t, i := st.i + 2, ellipsis := st.ellipsis, ip := ip } = .ok st') ∨
       (st.s.drop off = [58, 58] ∧ st'.s = [] ∧ st'.i = st.i + 2) ∨
       (∃ t ip, st.s.drop off = 58 :: 58 :: t ∧
          parseIPv6Loop input zone fuel
            { s := t, i := st.i + 2, ellipsis := (st.i : Int) + 2, ip := ip } = .ok st')) := by
  unfold parseIPv6Loop at h
  simp only [hi, not_true_eq_false, if_false] at h
  generalize (input.length - (if zone.length > 0 then zone.length + 1 else 0)) = e at h ⊢
  cases hg : hexGroup st.s 0 0 with
  | error e => simp [hg] at h
  | ok r =>
    obtain ⟨off, acc⟩ := r
    simp only [hg] at h
    refine ⟨off, acc, rfl, ?_⟩
    by_cases hoff : off = 0
    · simp [hoff] at h
    · refine ⟨hoff, ?_⟩
      simp only [hoff, if_false] at h
      by_cases hdot : off < st.s.length ∧ st.s.getD off 0 = 46
      · left
        simp only [hdot, and_self, if_true] at h
        split_ifs at h
        split at h
        · simp at h
        · rename_i f hf
          simp only [Except.ok.injEq] at h
          subst h
          exact ⟨hdot.2, hdot.1, ⟨f, hf⟩, rfl, rfl, rfl⟩
      · right
        simp only [hdot, if_false] at h
        rcases hu : st.s.drop off with _ | ⟨x, _ | ⟨y, t⟩⟩
        · left
          simp only [hu, List.length_nil, if_true, Except.ok.injEq] at h
          subst h
          exact ⟨rfl, rfl, rfl, rfl⟩
        · simp [hu] at h
          split_ifs at h
        · right
          by_cases hx : x = 58
          · subst hx
            by_cases hy : y = 58
            · subst hy
              right
              cases t with
              | nil =>
                left
                simp [hu] at h
                split_ifs at h
                simp only [Except.ok.injEq] at h
                subst h
                exact ⟨rfl, rfl, rfl⟩
              | cons z t =>
                right
                simp [hu] at h
                split_ifs at h
                exact ⟨z :: t, _, rfl, h⟩
            · left
              simp [hu, hy] at h
              exact ⟨y :: t, _, rfl, h⟩
          · simp [hu, hx] at h

/-! ## The bytes of an accepted IPv6 literal -/

theorem hexVal_digit {c : Nat} (h : 48 ≤ c ∧ c ≤ 57) : (hexVal c).isSome = true := by
  simp [hexVal, h]

theorem hexVal_isSome_ne {c d : Nat} (h : (hexVal c).isSome = true)
    (hd : (hexVal d).isSome = false) : c ≠ d := by
  rintro rfl
  rw [h] at hd
  exact Bool.noConfusion hd

theorem slice_suffix {s t : GoString} {e : Nat} (hsuf : s <:+ t.take e) (he : e ≤ t.length) :
    slice t (e - s.length) e = s := by
  unfold slice
  have hl : (t.take e).length = e := by simp [he]
  have := List.suffix_iff_eq_drop.1 hsuf
  rw [hl] at this
  exact this.symm

theorem parseIPv6Loop_ok {input zone : GoString} (fuel : Nat) (st st' : v6State)
    (hsuf : st.s <:+ input.take
      (input.length - (if zone.length > 0 then zone.length + 1 else 0)))
    (h : parseIPv6Loop input zone fuel st = .ok st') (hfin : st'.s = []) :
    (∀ c ∈ st.s, (hexVal c).isSome = true ∨ c = 58 ∨ c = 46) ∧
    (2 ≤ st.s.count 58 ∨
      (st'.ellipsis = st.ellipsis ∧ st'.i ≤ st.i + 2 * st.s.count 58 + 4)) := by
  induction fuel generalizing st with
  | zero =>
    unfold parseIPv6Loop at h
    split_ifs at h
    simp only [Except.ok.injEq] at h
    subst h
    simp [hfin]
  | succ fuel ih =>
    by_cases hi : st.i < 16
    · obtain ⟨off, acc, hg, hoff, hcases⟩ := parseIPv6Loop_step hi h
      obtain ⟨_, hhex⟩ := hexGroup_ok hg
      simp only [Nat.sub_zero] at hhex
      have hsplit : st.s = st.s.take off ++ st.s.drop off := (List.take_append_drop off st.s).symm
      have hcount : st.s.count 58 = (st.s.drop off).count 58 := by
        conv_lhs => rw [hsplit]
        rw [List.count_append]
        have : (st.s.take off).count 58 = 0 := by
          apply List.count_eq_zero_of_not_mem
          intro hm
          have := hhex 58 hm
          simp [hexVal] at this
        omega
      have hmem : ∀ c ∈ st.s, c ∈ st.s.take off ∨ c ∈ st.s.drop off := by
        intro c hc
        rw [hsplit] at hc
        exact List.mem_append.1 hc
      rcases hcases with ⟨_, _, ⟨f, hf⟩, _, h2, h3⟩ | ⟨hd, _, h2, h3⟩ | ⟨t, ip, hd, hrec⟩ |
          ⟨hd, _, _⟩ | ⟨t, ip, hd, hrec⟩
      · refine ⟨?_, Or.inr ⟨h3, by omega⟩⟩
        unfold parseIPv4Fields at hf
        rw [slice_suffix hsuf (Nat.sub_le _ _)] at hf
        intro c hc
        rcases parseIPv4FieldsLoop_chars _ _ _ _ _ _ _ _ hf c hc with hdig | hdot
        · exact Or.inl (hexVal_digit hdig)
        · exact Or.inr (Or.inr hdot)
      · refine ⟨?_, Or.inr ⟨h3, by omega⟩⟩
        intro c hc
        rcases hmem c hc with hc | hc
        · exact Or.inl (hhex c hc)
        · rw [hd] at hc
          simp at hc
      · have hsuf2 : t <:+ input.take
            (input.length - (if zone.length > 0 then zone.length + 1 else 0)) := by
          refine List.IsSuffix.trans ?_ hsuf
          refine List.IsSuffix.trans ?_ (List.drop_suffix off st.s)
          rw [hd]
          exact List.suffix_cons _ _
        obtain ⟨hch, hcnt⟩ := ih _ hsuf2 hrec
        simp only at hch hcnt
        have hc2 : st.s.count 58 = t.count 58 + 1 := by
          rw [hcount, hd, List.count_cons_self]
        refine ⟨?_, ?_⟩
        · intro c hc
          rcases hmem c hc with hc | hc
          · exact Or.inl (hhex c hc)
          · rw [hd] at hc
            rcases List.mem_cons.1 hc with rfl | hc
            · exact Or.inr (Or.inl rfl)
            · exact hch c hc
        · rcases hcnt with hcnt | ⟨h1, h2⟩
          · exact Or.inl (by omega)
          · exact Or.inr ⟨h1, by omega⟩
      · refine ⟨?_, Or.inl ?_⟩
        · intro c hc
          rcases hmem c hc with hc | hc
          · exact Or.inl (hhex c hc)
          · rw [hd] at hc
            simp only [List.mem_cons, List.mem_singleton, List.not_mem_nil, or_false, or_self] at hc
            exact Or.inr (Or.inl hc)
        · rw [hcount, hd]
          simp
      · have hsuf2 : t <:+ input.take
            (input.length - (if zone.length > 0 then zone.length + 1 else 0)) := by
          refine List.IsSuffix.trans ?_ hsuf
          refine List.IsSuffix.trans ?_ (List.drop_suffix off st.s)
          rw [hd]
          exact List.IsSuffix.trans (List.suffix_cons _ _) (List.suffix_cons _ _)
        obtain ⟨hch, _⟩ := ih _ hsuf2 hrec
        refine ⟨?_, Or.inl ?_⟩
        · intro c hc
          rcases hmem c hc with hc | hc
          · exact Or.inl (hhex c hc)
          · rw [hd] at hc
            rcases List.mem_cons.1 hc with rfl | hc
            · exact Or.inr (Or.inl rfl)
            · rcases List.mem_cons.1 hc with rfl | hc
              · exact Or.inr (Or.inl rfl)
              · exact hch c hc
        · rw [hcount, hd]
          simp
    · unfold parseIPv6Loop at h
      simp only [hi, not_false_eq_true, if_true, Except.ok.injEq] at h
      subst h
      simp [hfin]

theorem parseIPv6_ok_chars {a : GoString} {ip : Addr} (hs : 37 ∉ a)
    (h : parseIPv6 a = .ok ip) :
    (∀ c ∈ a, (hexVal c).isSome = true ∨ c = 58 ∨ c = 46) ∧ 2 ≤ a.count 58 := by
  unfold parseIPv6 at h
  simp only [IndexByteString_eq_none hs, Option.isSome_none, Bool.false_eq_true, false_and,
    if_false] at h
  by_cases hlead : a.length ≥ 2 ∧ a.getD 0 0 = 58 ∧ a.getD 1 0 = 58
  · obtain ⟨x, y, t, rfl⟩ : ∃ x y t, a = x :: y :: t := by
      rcases a with _ | ⟨x, _ | ⟨y, t⟩⟩
      · simp at hlead
      · simp at hlead
      · exact ⟨x, y, t, rfl⟩
    simp only [List.getD_cons_zero, List.getD_cons_succ] at hlead
    obtain ⟨_, rfl, rfl⟩ := hlead
    refine ⟨?_, by simp⟩
    simp only [List.length_cons, ge_iff_le, le_add_iff_nonneg_left, zero_le, List.getD_cons_zero,
      List.getD_cons_succ, and_self, decide_True, if_true, List.drop_succ_cons, List.drop_zero,
      true_and] at h
    by_cases ht : t.length = 0
    · have : t = [] := List.length_eq_zero.1 ht
      subst this
      simp
    · simp only [ht, if_false] at h
      split at h
      · simp at h
      · rename_i st hst
        have hfin : st.s = [] := by
          by_contra hne
          have : st.s.length ≠ 0 := fun e => hne (List.length_eq_zero.1 e)
          simp [this] at h
        have hsuf : t <:+ (58 :: 58 :: t).take ((58 :: 58 :: t).length
            - (if ([] : GoString).length > 0 then ([] : GoString).length + 1 else 0)) := by
          simp only [List.length_nil, gt_iff_lt, lt_self_iff_false, if_false, Nat.sub_zero,
            List.take_length]
          exact List.IsSuffix.trans (List.suffix_cons _ _) (List.suffix_cons _ _)
        obtain ⟨hch, _⟩ := parseIPv6Loop_ok 8 _ st hsuf hst hfin
        intro c hc
        rcases List.mem_cons.1 hc with rfl | hc
        · exact Or.inr (Or.inl rfl)
        · rcases List.mem_cons.1 hc with rfl | hc
          · exact Or.inr (Or.inl rfl)
          · exact hch c hc
  · simp only [hlead, decide_False, Bool.false_eq_true, if_false, false_and] at h
    split at h
    · simp at h
    · rename_i st hst
      have hfin : st.s = [] := by
        by_contra hne
        have : st.s.length ≠ 0 := fun e => hne (List.length_eq_zero.1 e)
        simp [this] at h
      have hsuf : a <:+ a.take (a.length
          - (if ([] : GoString).length > 0 then ([] : GoString).length + 1 else 0)) := by
        simp
      obtain ⟨hch, hcnt⟩ := parseIPv6Loop_ok 8 _ st hsuf hst hfin
      refine ⟨hch, ?_⟩
      rcases hcnt with hcnt | ⟨h1, h2⟩
      · exact hcnt
      · simp only at h1 h2
        simp only [hfin, List.length_nil, ne_eq, not_true_eq_false, if_false, h1] at h
        by_cases h16 : st.i < 16
        · simp [h16] at h
        · omega

theorem WithZone_cons_z (ip : Addr) (zone : GoString) (h : ip.z = addrZ.z6noz)
    (hz : zone ≠ []) : (ip.WithZone zone).z = addrZ.zoneV6 zone := by
  simp [Addr.WithZone, Addr.Is6, h, hz]

theorem parseIPv6_ok_zone {s : GoString} {ip : Addr} {i : Nat}
    (hs : IndexByteString s 37 = some i) (h : parseIPv6 s = .ok ip) :
    ip.z = addrZ.zoneV6 (s.drop (i + 1)) ∧ s.drop (i + 1) ≠ [] := by
  unfold parseIPv6 at h
  simp only [hs, Option.isSome_some, true_and] at h
  by_cases hz : s.drop (i + 1) = []
  · simp [hz] at h
  · refine ⟨?_, hz⟩
    simp only [hz, if_false] at h
    have fin : ∀ {x : Addr}, x.z = addrZ.z6noz →
        Except.ok (ε := GoError) (x.WithZone (s.drop (i + 1))) = Except.ok ip →
        ip.z = addrZ.zoneV6 (s.drop (i + 1)) := by
      intro x hx e
      simp only [Except.ok.injEq] at e
      subst e
      exact WithZone_cons_z _ _ hx hz
    repeat' split at h
    all_goals first
      | exact fin rfl h
      | simp at h

theorem parseIPv6_ok_is6 {s : GoString} {ip : Addr} (h : parseIPv6 s = .ok ip) :
    ip.z ≠ addrZ.z4 ∧ (ip.hasZone = false → 37 ∉ s) := by
  cases hs : IndexByteString s 37 with
  | none =>
    have hno : 37 ∉ s := by
      have := Cut_not_mem s 37
      simpa [Cut, hs] using this
    rw [parseIPv6_ok_z hno h]
    exact ⟨by decide, fun _ => hno⟩
  | some i =>
    obtain ⟨hz, _⟩ := parseIPv6_ok_zone hs h
    refine ⟨by rw [hz]; exact fun e => addrZ.noConfusion e, ?_⟩
    intro hh
    simp [Addr.hasZone, hz] at hh

theorem parseIPZoneFromString_split_err {s : GoString} {ip : Addr}
    (herr : (SplitHostPort s).2.2 ≠ none) (hp : ParseAddr (Cut s 37).1 = .ok ip) :
    parseIPZoneFromString s = (ip, none) := by
  unfold parseIPZoneFromString
  rcases hsp : SplitHostPort s with ⟨host, port, _ | e⟩
  · rw [hsp] at herr
    exact absurd rfl herr
  · simp only [hp]

theorem parseIPZoneFromString_split_ok {s host port : GoString} {ip : Addr}
    (hsp : SplitHostPort s = (host, port, none)) (hp : ParseAddr (Cut host 37).1 = .ok ip) :
    parseIPZoneFromString s = (ip, none) := by
  unfold parseIPZoneFromString
  simp only [hsp, hp]

theorem not_mem_of_v4 {a : GoString} (h : ∀ c ∈ a, (48 ≤ c ∧ c ≤ 57) ∨ c = 46) {d : Nat}
    (hd : ¬ (48 ≤ d ∧ d ≤ 57)) (hd2 : d ≠ 46) : d ∉ a := by
  intro hm
  rcases h d hm with h1 | h1
  · exact hd h1
  · exact hd2 h1

theorem not_mem_of_v6 {a : GoString}
    (h : ∀ c ∈ a, (hexVal c).isSome = true ∨ c = 58 ∨ c = 46) {d : Nat}
    (hd : (hexVal d).isSome = false) (hd1 : d ≠ 58) (hd2 : d ≠ 46) : d ∉ a := by
  intro hm
  rcases h d hm with h1 | h1 | h1
  · rw [h1] at hd
    exact Bool.noConfusion hd
  · exact hd1 h1
  · exact hd2 h1

theorem not_mem_of_digits {p : GoString} (h : ∀ c ∈ p, 48 ≤ c ∧ c ≤ 57) {d : Nat}
    (hd : ¬ (48 ≤ d ∧ d ≤ 57)) : d ∉ p := fun hm => hd (h d hm)


/-! ## The first field of an accepted IPv4 literal -/

theorem parseIPv4FieldsLoop_first_field (s : GoString) (rest : GoString)
    (i val digLen : Nat) (fields f : List Nat)
    (hinv : (digLen = 0 ∧ val = 0) ∨ (digLen = 1 ∧ val ≤ 9) ∨ (digLen = 2 ∧ 10 ≤ val) ∨
      (digLen = 3 ∧ 100 ≤ val))
    (h : parseIPv4FieldsLoop s rest i val 0 digLen fields = .ok f) :
    ∃ ds rest', rest = ds ++ 46 :: rest' ∧ (∀ c ∈ ds, 48 ≤ c ∧ c ≤ 57) ∧
      digLen + ds.length ≤ 3 := by
  induction rest generalizing i val digLen with
  | nil => simp [parseIPv4FieldsLoop] at h
  | cons x xs ih =>
    simp only [parseIPv4FieldsLoop] at h
    by_cases hx : 48 ≤ x ∧ x ≤ 57
    · simp only [hx, and_self, if_true] at h
      split_ifs at h with h1 h2
      have hinv2 : (digLen + 1 = 0 ∧ val * 10 + x - 48 = 0) ∨
          (digLen + 1 = 1 ∧ val * 10 + x - 48 ≤ 9) ∨
          (digLen + 1 = 2 ∧ 10 ≤ val * 10 + x - 48) ∨
          (digLen + 1 = 3 ∧ 100 ≤ val * 10 + x - 48) := by omega
      obtain ⟨ds, rest', hr, hd, hl⟩ := ih _ _ _ hinv2 h
      refine ⟨x :: ds, rest', by simp [hr], ?_, by simp only [List.length_cons]; omega⟩
      intro c hc
      rcases List.mem_cons.1 hc with rfl | hc
      · exact hx
      · exact hd c hc
    · simp only [hx, if_false] at h
      by_cases hdot : x = 46
      · subst hdot
        exact ⟨[], xs, rfl, by simp, by simp only [List.length_nil]; omega⟩
      · simp [hdot] at h

theorem parseIPv4FieldsLoop_shape {a : GoString} {f : List Nat}
    (h : parseIPv4FieldsLoop a a 0 0 0 0 [0, 0, 0, 0] = .ok f) :
    ∃ ds rest, a = ds ++ 46 :: rest ∧ (∀ c ∈ ds, 48 ≤ c ∧ c ≤ 57) ∧ ds ≠ [] ∧
      ds.length ≤ 3 := by
  obtain ⟨ds, rest, ha, hd, hl⟩ :=
    parseIPv4FieldsLoop_first_field a a 0 0 0 _ f (Or.inl ⟨rfl, rfl⟩) h
  refine ⟨ds, rest, ha, hd, ?_, by omega⟩
  rintro rfl
  generalize hs : a = s at h
  rw [ha] at hs
  subst hs
  rw [List.nil_append] at h
  rw [parseIPv4FieldsLoop] at h
  simp at h

theorem hexGroup_digits (ds rest : GoString) (off acc : Nat)
    (hd : ∀ c ∈ ds, 48 ≤ c ∧ c ≤ 57) (hoff : off + ds.length ≤ 4) (hacc : acc < 16 ^ off) :
    ∃ acc', hexGroup (ds ++ 46 :: rest) off acc = .ok (off + ds.length, acc') := by
  induction ds generalizing off acc with
  | nil => exact ⟨acc, by simp [hexGroup, hexVal]⟩
  | cons x xs ih =>
    have hx : 48 ≤ x ∧ x ≤ 57 := hd x (List.mem_cons_self _ _)
    have hv : hexVal x = some (x - 48) := by simp [hexVal, hx]
    simp only [List.length_cons] at hoff
    have hpow : 16 ^ (off + 1) ≤ 16 ^ 4 := Nat.pow_le_pow_right (by norm_num) (by omega)
    have hlt : acc * 16 + (x - 48) < 16 ^ (off + 1) := by
      rw [pow_succ]
      omega
    have hmod : ((acc <<< 4) + (x - 48)) % 2 ^ 32 = acc * 16 + (x - 48) := by
      rw [Nat.shiftLeft_eq]
      apply Nat.mod_eq_of_lt
      norm_num at hpow hlt ⊢
      omega
    obtain ⟨acc', h'⟩ := ih (off + 1) (acc * 16 + (x - 48))
      (fun c hc => hd c (List.mem_cons_of_mem _ hc)) (by omega) hlt
    refine ⟨acc', ?_⟩
    simp only [List.cons_append, hexGroup, hv, hmod]
    have h3 : ¬ off > 3 := by omega
    have h65 : ¬ acc * 16 + (x - 48) > 65535 := by
      norm_num at hpow
      omega
    have e : off + 1 + xs.length = off + (xs.length + 1) := by omega
    rw [e] at h'
    simp only [h3, h65, if_false, List.length_cons]
    exact h'

theorem parseIPv4FieldsLoop_length (s rest : GoString) (i val pos digLen : Nat)
    (fields f : List Nat)
    (h : parseIPv4FieldsLoop s rest i val pos digLen fields = .ok f) :
    f.length = fields.length := by
  induction rest generalizing i val pos digLen fields with
  | nil =>
    simp only [parseIPv4FieldsLoop] at h
    split_ifs at h
    simp only [Except.ok.injEq] at h
    subst h
    simp
  | cons x xs ih =>
    simp only [parseIPv4FieldsLoop] at h
    split_ifs at h
    · exact ih _ _ _ _ _ h
    · rw [ih _ _ _ _ _ h]
      simp

/-! ## The IPv4-mapped form of an IPv4 literal -/

theorem getD_append_cons (ds : GoString) (x : Nat) (rest : GoString) :
    (ds ++ x :: rest).getD ds.length 0 = x := by
  induction ds with
  | nil => rfl
  | cons y ys ih => simpa using ih

theorem parseIPv6Loop_embedded {input a : GoString} {f ip : List Nat} (fuel : Nat) (i : Nat)
    (hi : i + 4 ≤ 16) (hsuf : a <:+ input)
    (h : parseIPv4FieldsLoop a a 0 0 0 0 [0, 0, 0, 0] = .ok f) :
    parseIPv6Loop input [] (fuel + 1) { s := a, i := i, ellipsis := 0, ip := ip }
      = .ok { s := [], i := i + 4, ellipsis := 0, ip := setFields ip i f } := by
  obtain ⟨ds, rest, ha, hd, hne, hl⟩ := parseIPv4FieldsLoop_shape h
  obtain ⟨acc, hg⟩ := hexGroup_digits ds rest 0 0 hd (by omega) (by norm_num)
  rw [← ha] at hg
  have hlen : 0 + ds.length < a.length := by
    rw [ha]
    simp
  have hdot : a.getD (0 + ds.length) 0 = 46 := by
    rw [ha, Nat.zero_add]
    exact getD_append_cons ds 46 rest
  have hpos : 0 + ds.length ≠ 0 := by
    have := List.length_pos.2 hne
    omega
  have hv4 : parseIPv4Fields input (input.length - 0 - a.length) (input.length - 0) = .ok f := by
    unfold parseIPv4Fields
    have hs : slice input (input.length - a.length) input.length = a :=
      slice_suffix (by simpa using hsuf) (le_refl _)
    simp only [Nat.sub_zero, hs]
    exact h
  unfold parseIPv6Loop
  have hi16 : i < 16 := by omega
  simp only [hi16, not_true_eq_false, if_false, hg, hpos, hlen, hdot, and_self, if_true,
    List.length_nil, gt_iff_lt, lt_self_iff_false, hv4]
  have h2 : ¬ i + 4 > 16 := by omega
  simp [h2]

theorem parseIPv6_mapped {a : GoString} {f : List Nat}
    (h : parseIPv4FieldsLoop a a 0 0 0 0 [0, 0, 0, 0] = .ok f) :
    parseIPv6 ([58, 58, 102, 102, 102, 102, 58] ++ a)
      = .ok ((AddrFrom16 (clearRange (shiftGroups 10 0 6
          (setFields (((List.replicate 16 0).set 0 255).set 1 255) 2 f)) 0 10)).WithZone []) := by
  have hch := parseIPv4FieldsLoop_chars _ _ _ _ _ _ _ _ h
  obtain ⟨ds, rest, ha, hd, hne, hl⟩ := parseIPv4FieldsLoop_shape h
  obtain ⟨d, ds', rfl⟩ : ∃ d ds', ds = d :: ds' := by
    cases ds with
    | nil => exact absurd rfl hne
    | cons d ds' => exact ⟨d, ds', rfl⟩
  have hdd : 48 ≤ d ∧ d ≤ 57 := hd d (List.mem_cons_self _ _)
  have a37 : 37 ∉ a := not_mem_of_v4 hch (by omega) (by omega)
  have hno : 37 ∉ [58, 58, 102, 102, 102, 102, 58] ++ a := by simp [a37]
  have hloop2 := @parseIPv6Loop_embedded ([58, 58, 102, 102, 102, 102, 58] ++ a) a f
    (((List.replicate 16 0).set 0 255).set 1 255) 6 2 (by norm_num)
    (List.suffix_append _ _) h
  have hloop : parseIPv6Loop ([58, 58, 102, 102, 102, 102, 58] ++ a) [] 8
      { s := [102, 102, 102, 102, 58] ++ a, i := 0, ellipsis := 0, ip := List.replicate 16 0 }
      = .ok { s := [], i := 6, ellipsis := 0,
              ip := setFields (((List.replicate 16 0).set 0 255).set 1 255) 2 f } := by
    rw [← hloop2]
    rw [parseIPv6Loop]
    have hg : hexGroup ([102, 102, 102, 102, 58] ++ a) 0 0 = .ok (4, 65535) := by
      simp [hexGroup, hexVal]
    simp only [hg]
    rw [ha]
    have hd58 : d ≠ 58 := by omega
    simp [hd58]
  unfold parseIPv6
  simp only [IndexByteString_eq_none hno]
  generalize List.replicate 16 0 = zs at hloop ⊢
  simp only [List.cons_append, List.nil_append, List.length_cons, List.getD_cons_zero,
    List.getD_cons_succ, List.drop_succ_cons, List.drop_zero] at hloop ⊢
  simp [hloop]

theorem mapped_bytes (f0 f1 f2 f3 : Nat) :
    clearRange (shiftGroups 10 0 6
        (setFields (((List.replicate 16 0).set 0 255).set 1 255) 2 [f0, f1, f2, f3])) 0 10
      = [0, 0, 0, 0, 0, 0, 0, 0, 0, 0, 255, 255, f0, f1, f2, f3] := by
  simp [setFields, shiftGroups, clearRange, List.replicate]

theorem lor_reorder (a b c d x y z u v : Nat) (h : x ||| y = z) (hu : u = 0) (hv : v = 0) :
    a ||| b ||| c ||| d ||| x ||| y ||| u ||| v = z ||| d ||| c ||| b ||| a := by
  subst h hu hv
  rw [Nat.or_zero, Nat.or_zero]
  ac_rfl

theorem mapped_addr (f0 f1 f2 f3 : Nat) :
    (AddrFrom16 [0, 0, 0, 0, 0, 0, 0, 0, 0, 0, 255, 255, f0, f1, f2, f3]).addr
      = (AddrFrom4 [f0, f1, f2, f3]).addr := by
  simp only [AddrFrom16, AddrFrom4, beUint64, List.take, List.drop, List.getD_cons_zero,
    List.getD_cons_succ, uint128.mk.injEq]
  constructor
  · decide
  · exact lor_reorder f3 (f2 <<< 8) (f1 <<< 16) (f0 <<< 24) (255 <<< 32) (255 <<< 40)
      281470681743360 (0 <<< 48) (0 <<< 56) (by decide) (by decide) (by decide)

/-! ## The fuel of the loop of `parseIPv6` suffices -/

theorem hexGroup_ne_outOfFuel (rest : GoString) (off acc : Nat) :
    hexGroup rest off acc ≠ .error outOfFuel := by
  induction rest generalizing off acc with
  | nil => simp [hexGroup]
  | cons x xs ih =>
    simp only [hexGroup]
    split
    · simp
    · split_ifs
      · simp [outOfFuel]
      · simp [outOfFuel]
      · exact ih _ _

theorem parseIPv4FieldsLoop_ne_outOfFuel (s rest : GoString) (i val pos digLen : Nat)
    (fields : List Nat) :
    parseIPv4FieldsLoop s rest i val pos digLen fields ≠ .error outOfFuel := by
  induction rest generalizing i val pos digLen fields with
  | nil =>
    simp only [parseIPv4FieldsLoop]
    split_ifs <;> simp [outOfFuel]
  | cons x xs ih =>
    simp only [parseIPv4FieldsLoop]
    split_ifs
    all_goals first
      | exact ih _ _ _ _ _
      | simp [outOfFuel]

theorem parseIPv6Loop_fuel (input zone : GoString) (fuel : Nat) (st : v6State)
    (h : 16 ≤ st.i + 2 * fuel) : parseIPv6Loop input zone fuel st ≠ .error outOfFuel := by
  induction fuel generalizing st with
  | zero =>
    have : ¬ st.i < 16 := by omega
    simp [parseIPv6Loop, this]
  | succ fuel ih =>
    intro e
    rw [parseIPv6Loop] at e
    by_cases hi : st.i < 16
    · simp only [hi, not_true_eq_false, if_false] at e
      cases hg : hexGroup st.s 0 0 with
      | error err =>
        simp only [hg, Except.error.injEq] at e
        rw [e] at hg
        exact hexGroup_ne_outOfFuel _ _ _ hg
      | ok r =>
        obtain ⟨off, acc⟩ := r
        simp only [hg] at e
        by_cases hoff : off = 0
        · simp [hoff, outOfFuel] at e
        · simp only [hoff, if_false] at e
          by_cases hdot : off < st.s.length ∧ st.s.getD off 0 = 46
          · simp only [hdot, and_self, if_true] at e
            unfold parseIPv4Fields at e
            split_ifs at e
            · simp [outOfFuel] at e
            · simp [outOfFuel] at e
            · split at e
              · rename_i err heq
                simp only [Except.error.injEq] at e
                rw [e] at heq
                exact parseIPv4FieldsLoop_ne_outOfFuel _ _ _ _ _ _ _ heq
              · simp at e
            · split at e
              · rename_i err heq
                simp only [Except.error.injEq] at e
                rw [e] at heq
                exact parseIPv4FieldsLoop_ne_outOfFuel _ _ _ _ _ _ _ heq
              · simp at e
          · simp only [hdot, if_false] at e
            split_ifs at e
            · simp [outOfFuel] at e
            · simp [outOfFuel] at e
            · simp [outOfFuel] at e
            · exact ih _ (by simp only; omega) e
            · exact ih _ (by simp only; omega) e
    · simp [hi] at e

theorem parseIPv6_ne_outOfFuel (s : GoString) : parseIPv6 s ≠ .error outOfFuel := by
  intro e
  unfold parseIPv6 at e
  simp only at e
  split_ifs at e
  all_goals first
    | (simp [outOfFuel] at e; done)
    | (split at e
       · rename_i err heq
         simp only [Except.error.injEq] at e
         rw [e] at heq
         exact parseIPv6Loop_fuel _ _ 8 _ (by simp) heq
       · split_ifs at e <;> simp [outOfFuel] at e)

theorem ParseAddr_ne_outOfFuel (s : GoString) : ParseAddr s ≠ .error outOfFuel := by
  have loop : ∀ rest, ParseAddrLoop s rest ≠ .error outOfFuel := by
    intro rest
    induction rest with
    | nil => simp [ParseAddrLoop, outOfFuel]
    | cons x xs ih =>
      simp only [ParseAddrLoop]
      split_ifs
      · intro e
        unfold parseIPv4 parseIPv4Fields at e
        split at e
        · rename_i err heq
          simp only [Except.error.injEq] at e
          rw [e] at heq
          exact parseIPv4FieldsLoop_ne_outOfFuel _ _ _ _ _ _ _ heq
        · simp at e
      · exact parseIPv6_ne_outOfFuel s
      · simp [outOfFuel]
      · exact ih
  exact loop s

/-! ## The forms of a remote address -/

theorem parse_forms_v4 {a p : GoString} {ip : Addr} (ha : ParseAddr a = .ok ip)
    (hv4 : parseIPv4 a = .ok ip) (hp : ∀ c ∈ p, 48 ≤ c ∧ c ≤ 57) :
    parseIPZoneFromString a = (ip, none) ∧
      parseIPZoneFromString (a ++ 58 :: p) = (ip, none) := by
  have p58 : 58 ∉ p := not_mem_of_digits hp (by omega)
  have p91 : 91 ∉ p := not_mem_of_digits hp (by omega)
  have p93 : 93 ∉ p := not_mem_of_digits hp (by omega)
  obtain ⟨_, hch, _⟩ := parseIPv4_ok hv4
  have a58 : 58 ∉ a := not_mem_of_v4 hch (by omega) (by omega)
  have a91 : 91 ∉ a := not_mem_of_v4 hch (by omega) (by omega)
  have a93 : 93 ∉ a := not_mem_of_v4 hch (by omega) (by omega)
  have a37 : 37 ∉ a := not_mem_of_v4 hch (by omega) (by omega)
  constructor
  · exact parseIPZoneFromString_split_err (SplitHostPort_no_colon a58)
      (by rw [Cut_of_not_mem a37]; exact ha)
  · exact parseIPZoneFromString_split_ok (SplitHostPort_host_port a58 a91 a93 p58 p91 p93)
      (by rw [Cut_of_not_mem a37]; exact ha)

theorem parse_forms_v6 {a p z : GoString} {ip : Addr} (ha : ParseAddr a = .ok ip)
    (hv6 : parseIPv6 a = .ok ip) (a37 : 37 ∉ a) (hp : ∀ c ∈ p, 48 ≤ c ∧ c ≤ 57)
    (z91 : 91 ∉ z) (z93 : 93 ∉ z) :
    parseIPZoneFromString a = (ip, none) ∧
      parseIPZoneFromString (a ++ 37 :: z) = (ip, none) ∧
      parseIPZoneFromString (91 :: a ++ 93 :: 58 :: p) = (ip, none) ∧
      parseIPZoneFromString (91 :: (a ++ 37 :: z) ++ 93 :: 58 :: p) = (ip, none) := by
  have p58 : 58 ∉ p := not_mem_of_digits hp (by omega)
  have p91 : 91 ∉ p := not_mem_of_digits hp (by omega)
  have p93 : 93 ∉ p := not_mem_of_digits hp (by omega)
  obtain ⟨hch, hcount⟩ := parseIPv6_ok_chars a37 hv6
  have a91 : 91 ∉ a := not_mem_of_v6 hch (by decide) (by omega) (by omega)
  have a93 : 93 ∉ a := not_mem_of_v6 hch (by decide) (by omega) (by omega)
  have ahead : a.head? ≠ some 91 := fun e => a91 (List.mem_of_mem_head? e)
  have az91 : 91 ∉ a ++ 37 :: z := by simp [a91, z91]
  have az93 : 93 ∉ a ++ 37 :: z := by simp [a93, z93]
  have azhead : (a ++ 37 :: z).head? ≠ some 91 := fun e => az91 (List.mem_of_mem_head? e)
  have azcount : 2 ≤ (a ++ 37 :: z).count 58 := by
    rw [List.count_append]
    omega
  refine ⟨?_, ?_, ?_, ?_⟩
  · exact parseIPZoneFromString_split_err (SplitHostPort_many_colons ahead hcount)
      (by rw [Cut_of_not_mem a37]; exact ha)
  · exact parseIPZoneFromString_split_err (SplitHostPort_many_colons azhead azcount)
      (by rw [Cut_append_cons z a37]; exact ha)
  · exact parseIPZoneFromString_split_ok (SplitHostPort_bracketed a91 a93 p58 p91 p93)
      (by rw [Cut_of_not_mem a37]; exact ha)
  · exact parseIPZoneFromString_split_ok (SplitHostPort_bracketed az91 az93 p58 p91 p93)
      (by rw [Cut_append_cons z a37]; exact ha)

theorem ParseAddr_v4_or_v6 {a : GoString} {ip : Addr} (ha : ParseAddr a = .ok ip) :
    (ip.Is4 = true → parseIPv4 a = .ok ip) ∧
      (ip.Is6 = true → parseIPv6 a = .ok ip ∧ (ip.hasZone = false → 37 ∉ a)) := by
  constructor
  · intro h4
    have hz4 : ip.z = addrZ.z4 := by simpa [Addr.Is4] using h4
    rcases ParseAddrLoop_ok ha with h | h
    · exact h
    · exact absurd hz4 (parseIPv6_ok_is6 h).1
  · intro h6
    have hz6 : ip.z ≠ addrZ.z4 := by
      have : ip.z ≠ addrZ.z0 ∧ ip.z ≠ addrZ.z4 := by simpa [Addr.Is6] using h6
      exact this.2
    rcases ParseAddrLoop_ok ha with h | h
    · exact absurd (parseIPv4_ok h).1 hz6
    · exact ⟨h, (parseIPv6_ok_is6 h).2⟩

theorem WithZone_nil_addr (ip : Addr) : (ip.WithZone []).addr = ip.addr := by
  unfold Addr.WithZone
  split_ifs <;> rfl

theorem bytes_mapped : bytes "::ffff:" = [58, 58, 102, 102, 102, 102, 58] := by decide

theorem ParseAddr_mapped {a : GoString} {ip : Addr} (hv4 : parseIPv4 a = .ok ip) :
    ∃ ip6, ParseAddr (bytes "::ffff:" ++ a) = .ok ip6 ∧
      parseIPv6 (bytes "::ffff:" ++ a) = .ok ip6 ∧ 37 ∉ bytes "::ffff:" ++ a ∧
      ip6.z = addrZ.z6noz ∧ ip6.addr = ip.addr := by
  obtain ⟨_, hch, f, hf, rfl⟩ := parseIPv4_ok hv4
  have a37 : 37 ∉ a := not_mem_of_v4 hch (by omega) (by omega)
  have hno : 37 ∉ bytes "::ffff:" ++ a := by
    rw [bytes_mapped]
    simp [a37]
  have h6 := parseIPv6_mapped hf
  rw [← bytes_mapped] at h6
  refine ⟨_, ?_, h6, hno, parseIPv6_ok_z hno h6, ?_⟩
  · rw [← h6, bytes_mapped]
    simp [ParseAddr, ParseAddrLoop]
  · have hlen := parseIPv4FieldsLoop_length _ _ _ _ _ _ _ _ hf
    obtain ⟨f0, f1, f2, f3, rfl⟩ : ∃ f0 f1 f2 f3, f = [f0, f1, f2, f3] := by
      rcases f with _ | ⟨f0, _ | ⟨f1, _ | ⟨f2, _ | ⟨f3, _ | ⟨f4, t⟩⟩⟩⟩⟩ <;>
        simp at hlen
      exact ⟨f0, f1, f2, f3, rfl⟩
    rw [WithZone_nil_addr, mapped_bytes, mapped_addr]

theorem Contains_v4_not_v6 {pfx : Prefix} {ip ip6 : Addr} (hc : pfx.Contains ip = true)
    (h4 : ip.z = addrZ.z4) (h6 : ip6.z = addrZ.z6noz) : pfx.Contains ip6 = false := by
  unfold Prefix.Contains at hc ⊢
  have hb4 : ip.BitLen = 32 := by simp [Addr.BitLen, h4]
  have hb6 : ip6.BitLen = 128 := by simp [Addr.BitLen, h6]
  split_ifs at hc with h1 h2
  · rw [hb4] at h2
    have : pfx.ip.BitLen = 32 := by omega
    simp [this, hb6]
  · rw [hb4] at h2
    have : pfx.ip.BitLen = 32 := by omega
    simp [this, hb6]

theorem Match_single_range (m : MatchDynamicRemoteIP) (p : IPRangeSource) (r : Request)
    (ip : Addr) (pfx : Prefix) (hprov : m.Providers = some p) (hrs : p.GetIPRanges r = [pfx])
    (hparse : parseIPZoneFromString r.RemoteAddr = (ip, none)) :
    (Match m r).result = .ret (pfx.Contains ip) := by
  rw [Match_parsed m r ip hparse, matchIP_provider m r ip p hprov, hrs]
  cases h : pfx.Contains ip <;> simp [scanRanges, h]


/-! ## Address extraction -/

/-- C7: `parseIPZoneFromString` parses the host part of its input (the host that
`SplitHostPort` returns, or the whole input when that fails) up to its first `%`. When
it succeeds, the address returned carries no zone: it is an IPv4 address or an IPv6
address without zone, so `hasZone` is false; when it fails, the address returned with
the error is `0.0.0.0`, and the error is one of the parser, not the fuel of the model
running out. -/
theorem parseIPZoneFromString_no_zone (s : GoString) :
    (∃ host, (host = s ∨ ∃ port, SplitHostPort s = (host, port, none)) ∧
      parseIPZoneFromString s =
        match ParseAddr (host.takeWhile (fun x => decide (x ≠ 37))) with
        | .error err => (IPv4Unspecified, some err)
        | .ok ipAddr => (ipAddr, none)) ∧
    ((parseIPZoneFromString s).2 = none →
      ((parseIPZoneFromString s).1.z = addrZ.z4 ∨ (parseIPZoneFromString s).1.z = addrZ.z6noz) ∧
      (parseIPZoneFromString s).1.hasZone = false) ∧
    ((parseIPZoneFromString s).2 ≠ none →
      (parseIPZoneFromString s).1 = AddrFrom4 [0, 0, 0, 0] ∧
      (parseIPZoneFromString s).2 ≠ some outOfFuel) := by
  obtain ⟨host, hhost, heq⟩ := parseIPZoneFromString_host s
  refine ⟨⟨host, hhost, heq⟩, ?_⟩
  have hno : 37 ∉ host.takeWhile (fun x => decide (x ≠ 37)) := by
    rw [← Cut_eq_takeWhile]
    exact Cut_not_mem host 37
  rw [heq]
  cases hp : ParseAddr (host.takeWhile (fun x => decide (x ≠ 37))) with
  | error e =>
    have hfuel : e ≠ outOfFuel := by
      rintro rfl
      exact ParseAddr_ne_outOfFuel _ hp
    simp [IPv4Unspecified, hfuel]
  | ok ip =>
    have hz := ParseAddr_ok_z hno hp
    simp only [ne_eq, not_true_eq_false, false_implies, and_true, true_implies]
    refine ⟨hz, ?_⟩
    rcases hz with hz | hz <;> simp [Addr.hasZone, hz]

/-- C4: address extraction yields the bare IP for every well-formed input. For a
literal `a` that `ParseAddr` accepts as the address `ip`, a decimal port `p` and a
non-empty zone `z` without `%`, `[`, `]`, `:`: when `ip` is IPv4, `a` and `a:p` give
`ip`; when `ip` is IPv6 without zone, `a`, `a%z`, `[a]:p` and `[a%z]:p` all give `ip`. -/
theorem parseIPZoneFromString_well_formed (a p z : GoString) (ip : Addr)
    (ha : ParseAddr a = .ok ip) (hp : ∀ c ∈ p, 48 ≤ c ∧ c ≤ 57)
    (hz : z ≠ [] ∧ 37 ∉ z ∧ 91 ∉ z ∧ 93 ∉ z ∧ 58 ∉ z) :
    (ip.Is4 = true →
      parseIPZoneFromString a = (ip, none) ∧
      parseIPZoneFromString (a ++ 58 :: p) = (ip, none)) ∧
    (ip.Is6 = true → ip.hasZone = false →
      parseIPZoneFromString a = (ip, none) ∧
      parseIPZoneFromString (a ++ 37 :: z) = (ip, none) ∧
      parseIPZoneFromString (91 :: a ++ 93 :: 58 :: p) = (ip, none) ∧
      parseIPZoneFromString (91 :: (a ++ 37 :: z) ++ 93 :: 58 :: p) = (ip, none)) := by
  obtain ⟨_, _, z91, z93, _⟩ := hz
  obtain ⟨h4, h6⟩ := ParseAddr_v4_or_v6 ha
  constructor
  · intro hIs4
    exact parse_forms_v4 ha (h4 hIs4) hp
  · intro hIs6 hnz
    obtain ⟨hv6, hno⟩ := h6 hIs6
    exact parse_forms_v6 ha hv6 (hno hnz) hp z91 z93

/-- Witness of C4: `203.0.113.7:443` gives `203.0.113.7` and `[fe80::1%eth0]:8080`
gives `fe80::1`. -/
theorem parseIPZoneFromString_well_formed_witness :
    parseIPZoneFromString (bytes "203.0.113.7:443") = (AddrFrom4 [203, 0, 113, 7], none) ∧
    parseIPZoneFromString (bytes "[fe80::1%eth0]:8080")
      = (AddrFrom16 [0xfe, 0x80, 0, 0, 0, 0, 0, 0, 0, 0, 0, 0, 0, 0, 0, 1], none) :=
  ⟨((parseIPZoneFromString_well_formed (bytes "203.0.113.7") (bytes "443") (bytes "eth0")
      (AddrFrom4 [203, 0, 113, 7]) (by decide) (by decide) (by decide)).1 (by decide)).2,
    ((parseIPZoneFromString_well_formed (bytes "fe80::1") (bytes "8080") (bytes "eth0")
      (AddrFrom16 [0xfe, 0x80, 0, 0, 0, 0, 0, 0, 0, 0, 0, 0, 0, 0, 0, 1])
      (by decide) (by decide) (by decide)).2 (by decide) (by decide)).2.2.2⟩

/-- C10: address families are not converted before the scan. For an IPv4 literal `a`
with address `ip` and a prefix that contains `ip` (hence an IPv4 prefix), returned
alone by the provider: the IPv4-mapped forms `::ffff:a` and `[::ffff:a]:port` parse, to
an IPv6 address with the same 128 bits, which the prefix does not contain, and `Match`
returns `false` for them, while it returns `true` for `a`. -/
theorem Match_mapped_v4 (m : MatchDynamicRemoteIP) (p : IPRangeSource) (r : Request)
    (a port : GoString) (ip : Addr) (pfx : Prefix)
    (hprov : m.Providers = some p) (hrs : ∀ q, p.GetIPRanges q = [pfx])
    (ha : ParseAddr a = .ok ip) (h4 : ip.Is4 = true) (hc : pfx.Contains ip = true)
    (hport : ∀ c ∈ port, 48 ≤ c ∧ c ≤ 57) :
    (∃ ip6, parseIPZoneFromString (bytes "::ffff:" ++ a) = (ip6, none) ∧
        parseIPZoneFromString (91 :: (bytes "::ffff:" ++ a) ++ 93 :: 58 :: port) = (ip6, none) ∧
        ip6.Is6 = true ∧ ip6.addr = ip.addr ∧ pfx.Contains ip6 = false) ∧
    (Match m { r with RemoteAddr := bytes "::ffff:" ++ a }).result = .ret false ∧
    (Match m { r with RemoteAddr := 91 :: (bytes "::ffff:" ++ a) ++ 93 :: 58 :: port }).result
      = .ret false ∧
    (Match m { r with RemoteAddr := a }).result = .ret true := by
  have hv4 := (ParseAddr_v4_or_v6 ha).1 h4
  have hz4 : ip.z = addrZ.z4 := (parseIPv4_ok hv4).1
  obtain ⟨ip6, hp6, hv6, hno, hz6, haddr⟩ := ParseAddr_mapped hv4
  obtain ⟨hbare, _, hbr, _⟩ := parse_forms_v6 (z := []) hp6 hv6 hno hport (by simp) (by simp)
  have hc6 : pfx.Contains ip6 = false := Contains_v4_not_v6 hc hz4 hz6
  have hplain := (parse_forms_v4 ha hv4 hport).1
  refine ⟨⟨ip6, hbare, hbr, by simp [Addr.Is6, hz6], haddr, hc6⟩, ?_, ?_, ?_⟩
  · rw [Match_single_range m p { r with RemoteAddr := bytes "::ffff:" ++ a } ip6 pfx hprov
      (hrs _) hbare, hc6]
  · rw [Match_single_range m p
      { r with RemoteAddr := 91 :: (bytes "::ffff:" ++ a) ++ 93 :: 58 :: port } ip6 pfx hprov
      (hrs _) hbr, hc6]
  · rw [Match_single_range m p { r with RemoteAddr := a } ip pfx hprov (hrs _) hplain, hc]

/-- Witness of C10: `198.51.100.42` against `198.51.100.0/24`, plain and IPv4-mapped. -/
theorem Match_mapped_v4_witness :
    (Match (matcherWith [net198]) (requestFrom "::ffff:198.51.100.42")).result = .ret false ∧
    (Match (matcherWith [net198]) (requestFrom "[::ffff:198.51.100.42]:8080")).result
      = .ret false ∧
    (Match (matcherWith [net198]) (requestFrom "198.51.100.42")).result = .ret true :=
  (Match_mapped_v4 (matcherWith [net198]) (staticSource [net198]) (requestFrom "")
    (bytes "198.51.100.42") (bytes "8080") (AddrFrom4 [198, 51, 100, 42]) net198 rfl
    (fun _ => rfl) (by decide) (by decide) (by decide) (by decide)).2

end DynamicIPMatcher
